import Mathlib

set_option maxHeartbeats 1000000

/-
Verification of the Fledge storage/OMF core against its specification.

The development shallowly embeds the C++ sources:
  * `Connection::formatDate`, `Connection::appendReadings`,
    `Connection::purgeReadings`, `Connection::jsonWhereClause`,
    `Connection::deleteRows`, `Connection::jsonAggregates`,
    `Connection::jsonModifiers`, `Connection::retrieveReadings`
    (PostgreSQL storage plugin),
  * `OMFLinkedData::processReading`, `OMFLinkedData::sendContainer`,
    `OMFLinkedData::flushContainers` (north OMF plugin),
  * `LazyJSON::getAttribute` (common LazyJSON scanner).

The storage code leans on glibc (`strptime`, `strftime`, `sscanf`, `strtod`)
for its timestamp and literal handling; those library routines are modelled
byte-for-byte at the precision the code exercises (C locale, the exact
format strings that appear in the source).  Strings are modelled as
`List Char`; machine integers that never overflow in the modelled paths are
modelled as `Nat`/`Int`.
-/

/-! ### ctype.h (C locale) -/

/-- C `isspace` in the C locale: space and the five control whitespace
characters 9..13. -/
def isSpaceC (c : Char) : Bool :=
  c.toNat = 32 || (9 ≤ c.toNat && c.toNat ≤ 13)

/-- C `isdigit`: the characters `0`..`9`. -/
def isDigitC (c : Char) : Bool :=
  48 ≤ c.toNat && c.toNat ≤ 57

/-- Numeric value of a digit character (`c - '0'`). -/
def digitVal (c : Char) : Nat := c.toNat - 48

/-- The digit character for a value below ten (`'0' + n`). -/
def digitChar (n : Nat) : Char := Char.ofNat (48 + n)

/-! ### glibc strptime for the format "%Y-%m-%d %H:%M:%S"

glibc's `strptime` reads a numeric field with `get_number(from, to, n)`:
skip whitespace, require a digit, then consume further digits while fewer
than `n` were consumed, `val * 10 <= to` still holds and a digit follows;
finally require `from <= val <= to`.  A literal format character must match
exactly; a whitespace format character skips any run of input whitespace. -/

/-- The digit-consuming loop of glibc `get_number` after the first digit:
`fuel` is the number of further digits the width still allows. -/
def getNumLoop (hi : Nat) : Nat → Nat → List Char → Nat × List Char
  | 0, v, s => (v, s)
  | fuel + 1, v, s =>
    match s with
    | [] => (v, [])
    | c :: rest =>
      if v * 10 ≤ hi && isDigitC c then
        getNumLoop hi fuel (v * 10 + digitVal c) rest
      else
        (v, c :: rest)

/-- glibc `get_number(lo, hi, n)`: the parsed value and the unconsumed
input, or `none` on a parse or range failure. -/
def getNumber (lo hi n : Nat) (s : List Char) : Option (Nat × List Char) :=
  match s.dropWhile isSpaceC with
  | [] => none
  | c :: rest =>
    if isDigitC c then
      let p := getNumLoop hi (n - 1) (digitVal c) rest
      if lo ≤ p.1 && p.1 ≤ hi then some p else none
    else none

/-- A literal character of a `strptime`/`sscanf` format: it must match the
next input character exactly. -/
def litC (c : Char) (s : List Char) : Option (List Char) :=
  match s with
  | [] => none
  | c0 :: rest => if c0 = c then some rest else none

/-- The six fields `struct tm` receives from
`strptime(date, "%Y-%m-%d %H:%M:%S", &tm)`, kept in user-facing form
(month 1..12, full year). -/
structure Tm6 where
  y : Nat
  mo : Nat
  d : Nat
  h : Nat
  mi : Nat
  s : Nat
deriving Repr, DecidableEq

/-- glibc `strptime(s, "%Y-%m-%d %H:%M:%S", &tm)`: `%Y` is
`get_number(0, 9999, 4)`, `%m` `get_number(1, 12, 2)`, `%d`
`get_number(1, 31, 2)`, `%H` `get_number(0, 23, 2)`, `%M`
`get_number(0, 59, 2)`, `%S` `get_number(0, 61, 2)`; the format's blank
skips input whitespace.  Returns the fields and the rest of the input. -/
def strptime6 (s0 : List Char) : Option (Tm6 × List Char) :=
  match getNumber 0 9999 4 s0 with
  | none => none
  | some (y, s1) =>
  match litC '-' s1 with
  | none => none
  | some s2 =>
  match getNumber 1 12 2 s2 with
  | none => none
  | some (mo, s3) =>
  match litC '-' s3 with
  | none => none
  | some s4 =>
  match getNumber 1 31 2 s4 with
  | none => none
  | some (d, s5) =>
  match getNumber 0 23 2 (s5.dropWhile isSpaceC) with
  | none => none
  | some (h, s6) =>
  match litC ':' s6 with
  | none => none
  | some s7 =>
  match getNumber 0 59 2 s7 with
  | none => none
  | some (mi, s8) =>
  match litC ':' s8 with
  | none => none
  | some s9 =>
  match getNumber 0 61 2 s9 with
  | none => none
  | some (sec, s10) => some (⟨y, mo, d, h, mi, sec⟩, s10)

/-! ### glibc strftime for the format "%Y-%m-%d %H:%M:%S"

`%m %d %H %M %S` are zero-padded to two digits; `%Y` is the year as an
unpadded decimal number (verified against glibc: year 99 prints as "99"). -/

/-- Two-digit zero-padded decimal (for values below 100). -/
def pad2 (n : Nat) : List Char :=
  [digitChar (n / 10), digitChar (n % 10)]

/-- glibc `strftime` `%Y` output for a year in 0..9999: unpadded decimal. -/
def yearChars (y : Nat) : List Char :=
  if y < 10 then [digitChar y]
  else if y < 100 then [digitChar (y / 10), digitChar (y % 10)]
  else if y < 1000 then
    [digitChar (y / 100), digitChar (y / 10 % 10), digitChar (y % 10)]
  else
    [digitChar (y / 1000), digitChar (y / 100 % 10), digitChar (y / 10 % 10),
     digitChar (y % 10)]

/-- `strftime(buf, n, "%Y-%m-%d %H:%M:%S", &tm)`. -/
def strftime6 (tm : Tm6) : List Char :=
  yearChars tm.y ++ ('-' :: (pad2 tm.mo ++ ('-' :: (pad2 tm.d ++
    (' ' :: (pad2 tm.h ++ (':' :: (pad2 tm.mi ++ (':' :: pad2 tm.s)))))))))

/-! ### sscanf pieces used by formatDate

`%*d` skips whitespace, accepts an optional sign and then needs at least
one digit, consuming the maximal digit run.  `%2[0-9]` consumes one or two
digit characters (no whitespace skip).  A failing directive stops the scan;
earlier assignments keep their values. -/

/-- The optional sign of a scanf `%d` conversion. -/
def dropSign (s : List Char) : List Char :=
  match s with
  | [] => []
  | c :: r => if c = '-' || c = '+' then r else c :: r

/-- sscanf `%*d`: the unconsumed input, or `none` when no digit follows the
optional sign. -/
def scanfNum (s : List Char) : Option (List Char) :=
  let s2 := dropSign (s.dropWhile isSpaceC)
  match s2 with
  | [] => none
  | c :: _ => if isDigitC c then some (s2.dropWhile isDigitC) else none

/-- sscanf `%2[0-9]`: up to two digit characters and the rest, `none` when
the first character is not a digit. -/
def scanSet2 (s : List Char) : Option (List Char × List Char) :=
  match s with
  | [] => none
  | c1 :: r1 =>
    if isDigitC c1 then
      match r1 with
      | c2 :: r2 => if isDigitC c2 then some ([c1, c2], r2) else some ([c1], r1)
      | [] => some ([c1], [])
    else none

/-- The shared `"%*d-%*d-%*d %*d:%*d:%*d"` head of the three sscanf calls
in `Connection::formatDate`. -/
def scanPre6 (s0 : List Char) : Option (List Char) :=
  match scanfNum s0 with
  | none => none
  | some s1 =>
  match litC '-' s1 with
  | none => none
  | some s2 =>
  match scanfNum s2 with
  | none => none
  | some s3 =>
  match litC '-' s3 with
  | none => none
  | some s4 =>
  match scanfNum s4 with
  | none => none
  | some s5 =>
  match scanfNum (s5.dropWhile isSpaceC) with
  | none => none
  | some s6 =>
  match litC ':' s6 with
  | none => none
  | some s7 =>
  match scanfNum s7 with
  | none => none
  | some s8 =>
  match litC ':' s8 with
  | none => none
  | some s9 => scanfNum s9

/-- The fractional-seconds scan
`sscanf(date, "%*d-%*d-%*d %*d:%*d:%*d.%[0-9]*", fractional)`: the
captured digit run, empty when any directive fails (the C buffer is
zero-initialised). -/
def scanFrac (date : List Char) : List Char :=
  match scanPre6 date with
  | none => []
  | some s =>
    match litC '.' s with
    | none => []
    | some s1 => s1.takeWhile isDigitC

/-- One timezone scan
`sscanf(date, "%*d-%*d-%*d %*d:%*d:%*d.%*d<sign>%2[0-9]:%2[0-9]", h, m)`:
the captured (hour, minute) digit runs, either possibly empty (the C
buffers are zero-initialised and a failing directive stops the scan). -/
def scanTzAfterSign (sign : Char) (s2 : List Char) : List Char × List Char :=
  match litC sign s2 with
  | none => ([], [])
  | some s3 =>
  match scanSet2 s3 with
  | none => ([], [])
  | some (hh, s4) =>
  match litC ':' s4 with
  | none => (hh, [])
  | some s5 =>
  match scanSet2 s5 with
  | none => (hh, [])
  | some (mm, _) => (hh, mm)

def scanTzSign (sign : Char) (date : List Char) : List Char × List Char :=
  match scanPre6 date with
  | none => ([], [])
  | some s =>
  match litC '.' s with
  | none => ([], [])
  | some s1 =>
  match scanfNum s1 with
  | none => ([], [])
  | some s2 => scanTzAfterSign sign s2

/-- Truncate the captured fraction to six digits and right-pad it with
zeros to exactly six characters (`fractional[6] = 0` followed by the
`strcat(fractional, "0")` loop). -/
def truncPad6 (fr : List Char) : List Char :=
  fr.take 6 ++ List.replicate (6 - (fr.take 6).length) '0'

/-- The timezone suffix `Connection::formatDate` appends: hours are
left-padded to two digits, minutes are right-padded (`3` becomes `30`) and
default to `00`. -/
def tzSuffix (sign : Char) (hh mm : List Char) : List Char :=
  sign :: ((if hh.length = 1 then ['0'] else []) ++ hh ++ ':' ::
    (if mm = [] then ['0', '0'] else mm ++ (if mm.length = 1 then ['0'] else [])))

/-- Shallow embedding of `Connection::formatDate` (part_002:1109-1204).
`none` stands for the C function returning `false`; `some out` for `true`
with `out` in `formatted_date`. -/
def formatDate (date : List Char) : Option (List Char) :=
  match strptime6 date with
  | none => none
  | some (tm, _) =>
    let base := strftime6 tm
    let frac := truncPad6 (scanFrac date)
    let minus := scanTzSign '-' date
    let tzPart :=
      if minus.1 ≠ [] then tzSuffix '-' minus.1 minus.2
      else
        let plus := scanTzSign '+' date
        if plus.1 ≠ [] then tzSuffix '+' plus.1 plus.2
        else ['+', '0', '0', ':', '0', '0']
    some (base ++ ('.' :: (frac ++ tzPart)))

/-! ### The documented timestamp grammar

The specification's accepted grammar is
`"YYYY-MM-DD HH:MM:SS[.fraction][±HH[:MM]]"`: four-digit year, two-digit
zero-padded date/time fields, an optional non-empty fraction digit run and
an optional timezone with a one- or two-digit hour and optional one- or
two-digit minutes.  Fraction and timezone digits are kept as characters so
leading zeros are preserved. -/

/-- The timezone part of a grammar input. -/
structure TzG where
  neg : Bool
  hh : List Char
  mm : Option (List Char)
deriving Repr, DecidableEq

/-- A timestamp of the accepted grammar, by parts. -/
structure TsG where
  y : Nat
  mo : Nat
  d : Nat
  h : Nat
  mi : Nat
  s : Nat
  frac : Option (List Char)
  tz : Option TzG
deriving Repr, DecidableEq

/-- Every character of the list is a decimal digit. -/
def digitsOk (l : List Char) : Prop := ∀ c ∈ l, isDigitC c = true

instance (l : List Char) : Decidable (digitsOk l) :=
  List.decidableBAll _ l

/-- Wellformedness of the optional fraction: non-empty digit run. -/
def fracOk : Option (List Char) → Prop
  | none => True
  | some f => f ≠ [] ∧ digitsOk f

instance : (o : Option (List Char)) → Decidable (fracOk o)
  | none => isTrue trivial
  | some _ => inferInstanceAs (Decidable (_ ∧ _))

/-- One- or two-digit run. -/
def tzDigitsOk : Option (List Char) → Prop
  | none => True
  | some m => (m.length = 1 ∨ m.length = 2) ∧ digitsOk m

instance : (o : Option (List Char)) → Decidable (tzDigitsOk o)
  | none => isTrue trivial
  | some _ => inferInstanceAs (Decidable (_ ∧ _))

/-- Wellformedness of the optional timezone: one- or two-digit hour and
optional one- or two-digit minutes. -/
def tzOk : Option TzG → Prop
  | none => True
  | some t => tzDigitsOk (some t.hh) ∧ tzDigitsOk t.mm

instance : (o : Option TzG) → Decidable (tzOk o)
  | none => isTrue trivial
  | some _ => inferInstanceAs (Decidable (_ ∧ _))

/-- Wellformedness of a grammar timestamp: field ranges, non-empty digit
fraction, one- or two-digit timezone hour and minutes. -/
def wfTs (g : TsG) : Prop :=
  g.y ≤ 9999 ∧ 1 ≤ g.mo ∧ g.mo ≤ 12 ∧ 1 ≤ g.d ∧ g.d ≤ 31 ∧ g.h ≤ 23 ∧
  g.mi ≤ 59 ∧ g.s ≤ 59 ∧ fracOk g.frac ∧ tzOk g.tz

instance (g : TsG) : Decidable (wfTs g) :=
  inferInstanceAs (Decidable (_ ∧ _))

/-- Four-digit zero-padded decimal (for values below 10000). -/
def pad4 (n : Nat) : List Char :=
  [digitChar (n / 1000), digitChar (n / 100 % 10), digitChar (n / 10 % 10),
   digitChar (n % 10)]

/-- The characters of the optional fraction part (`.` plus digits). -/
def fracChars : Option (List Char) → List Char
  | none => []
  | some f => '.' :: f

/-- The characters of the optional minutes of a timezone (`:` plus the
digits). -/
def mmPartChars : Option (List Char) → List Char
  | none => []
  | some m => ':' :: m

/-- The characters of the optional timezone part (sign, hour digits and
optional `:` plus minute digits). -/
def tzChars : Option TzG → List Char
  | none => []
  | some t => (if t.neg then '-' else '+') :: (t.hh ++ mmPartChars t.mm)

/-- The concrete input string a grammar timestamp denotes. -/
def renderTs (g : TsG) : List Char :=
  pad4 g.y ++ ('-' :: (pad2 g.mo ++ ('-' :: (pad2 g.d ++ (' ' :: (pad2 g.h ++
    (':' :: (pad2 g.mi ++ (':' :: (pad2 g.s ++
      (fracChars g.frac ++ tzChars g.tz)))))))))))

/-- The timezone suffix `formatDate` actually produces for a grammar input:
the input timezone is used only when a fraction is present (both timezone
sscanf patterns demand `.%*d` before the sign); otherwise `+00:00`. -/
def canonTz (g : TsG) : List Char :=
  match g.frac, g.tz with
  | some _, some t => tzSuffix (if t.neg then '-' else '+') t.hh ((t.mm).getD [])
  | _, _ => ['+', '0', '0', ':', '0', '0']

/-- The output `formatDate` produces for a grammar input. -/
def canonOut (g : TsG) : List Char :=
  strftime6 ⟨g.y, g.mo, g.d, g.h, g.mi, g.s⟩ ++
    ('.' :: (truncPad6 ((g.frac).getD []) ++ canonTz g))

/-- The general shape of every `formatDate` output: the strftime fields, a
six-digit fraction and a sign, two timezone hour digits and two minute
digits. -/
def canonIn (tm : Tm6) (F : List Char) (sgnc : Char) (H M : List Char) : List Char :=
  strftime6 tm ++ ('.' :: (F ++ (sgnc :: (H ++ mmPartChars (some M)))))

/-! ### Connection::purgeReadings (part_002:1374-1491)

The table is modelled as a list of rows carrying the two columns the purge
statements read (`id`, `user_ts`); `now` is the clock value `now()`
evaluates to, `user_ts` values are seconds.  The SQL statements the
function issues translate to list operations: `DELETE ... WHERE user_ts <
now() - INTERVAL 'age hours' [AND id < sent]`, and the three `count(*)`
queries.  `PQcmdTuples` of the `DELETE` is the number of deleted rows. -/

/-- One row of `foglamp.readings` as the purge statements see it. -/
structure RRow where
  id : Nat
  userTs : Int
deriving Repr, DecidableEq

/-- The summary object `purgeReadings` serialises into `result`. -/
structure PurgeSummary where
  removed : Nat
  unsentPurged : Nat
  unsentRetained : Nat
  readings : Nat
deriving Repr, DecidableEq

/-- PostgreSQL `round(x / 360)` for an integral numeric `x`: division by
360 rounded half away from zero. -/
def pgRound360 (x : Int) : Int :=
  if 0 ≤ x then (x + 180) / 360 else -((-x + 180) / 360)

/-- The `SELECT round(extract(epoch FROM (now() - min(user_ts)))/360)`
query of the zero-age branch: on an empty table `min` is NULL, the whole
expression is NULL, `PQgetvalue` is the empty string and `atol` yields 0.
The C code then casts the `long` through `(unsigned long)`. -/
def zeroAgeQuery (now : Int) (table : List RRow) : Nat :=
  match table.map RRow.userTs with
  | [] => 0
  | t :: ts =>
    (Int.emod (pgRound360 (now - (ts.foldl min t))) (2 ^ 64)).toNat

/-- The row predicate of the purge `DELETE` statement. -/
def purgeDeletes (cutoff : Int) (flags : Nat) (sent : Nat) (r : RRow) : Bool :=
  decide (r.userTs < cutoff) && (flags % 2 = 0 || decide (r.id < sent))

/-- Shallow embedding of `Connection::purgeReadings` (part_002:1374-1491):
the table after the delete, the reported summary and the returned count of
deleted rows. -/
def purgeReadings (age flags sent : Nat) (now : Int) (table : List RRow) :
    List RRow × PurgeSummary × Nat :=
  let effAge := if age = 0 then zeroAgeQuery now table else age
  let cutoff := now - effAge * 3600
  let unsentPurged :=
    if flags % 2 = 0 then
      (table.filter fun r => decide (r.userTs < cutoff) && decide (sent < r.id)).length
    else 0
  let remaining := table.filter fun r => ! purgeDeletes cutoff flags sent r
  let deletedRows := (table.filter fun r => purgeDeletes cutoff flags sent r).length
  let unsentRetained := (remaining.filter fun r => decide (sent < r.id)).length
  let numReadings := remaining.length
  (remaining, ⟨deletedRows, unsentPurged, unsentRetained, numReadings⟩, deletedRows)

/-- The JSON summary string `purgeReadings` writes into `result`. -/
def purgeSummaryJson (s : PurgeSummary) : String :=
  "\x7b \"removed\" : " ++ toString s.removed ++ ",  \"unsentPurged\" : " ++
    toString s.unsentPurged ++ ",  \"unsentRetained\" : " ++
    toString s.unsentRetained ++ ",  \"readings\" : " ++
    toString s.readings ++ " \x7d"

/-! ### LazyJSON::getAttribute (lazyjson.cpp:74-102)

The document is the byte sequence the scanner walks (a C string, so free of
NUL bytes); the current frame is `m_state->object` at index 0 with
`m_state->objectEnd` at index `endIdx`.  The C function builds the quoted
search key `"name"` but compares only `len = name.length()` bytes of it
(`strncmp(p, searchFor, len)`), sliding one byte at a time while
`p < m_state->objectEnd`; on a match it steps over `len + 2` bytes and then
skips whitespace and `:`. -/

/-- The quoted key `searchFor` that `getAttribute` builds. -/
def searchForOf (name : List Char) : List Char := '"' :: name ++ ['"']

/-- The skip loop `while (*p && (isspace(*p) || *p == ':')) p++`. -/
def attrAdvance (doc : List Char) (p : Nat) : Nat :=
  if h : p < doc.length then
    if isSpaceC (doc.get ⟨p, h⟩) || doc.get ⟨p, h⟩ = ':' then
      attrAdvance doc (p + 1)
    else p
  else p
termination_by doc.length - p

/-- The scanning loop of `getAttribute`: slide `p` while `p < endIdx`,
returning the advanced value cursor at the first position where the first
`len` bytes of the quoted key match. -/
def attrScan (doc : List Char) (endIdx len : Nat) (sf : List Char) (p : Nat) :
    Option Nat :=
  if p < endIdx then
    if (doc.drop p).take len = sf then some (attrAdvance doc (p + len + 2))
    else attrScan doc endIdx len sf (p + 1)
  else none
termination_by endIdx - p

/-- Shallow embedding of `LazyJSON::getAttribute`: `none` is the C NULL
return, `some i` a cursor at byte offset `i` of the document. -/
def getAttribute (inObject : Bool) (doc : List Char) (endIdx : Nat)
    (name : List Char) : Option Nat :=
  if ! inObject then none
  else attrScan doc endIdx name.length ((searchForOf name).take name.length) 0

/-- The complete quoted key occurs somewhere in the frame scanned by
`getAttribute` (what the specification's "occurs as a key" at least
requires). -/
def quotedKeyOccurs (doc : List Char) (endIdx : Nat) (name : List Char) : Prop :=
  ∃ i, i < endIdx ∧ (doc.drop i).take (name.length + 2) = searchForOf name

/-! ### OMFLinkedData (linkdata.cpp)

The emitter's per-connection memoisation tables are the keys of
`m_assetSent`, `m_containerSent` (with the remembered base type) and
`m_linkSent`; `m_containers` is the pending container buffer, kept as the
list of appended container objects (the C++ string is their
comma-separated concatenation, compared against `""` only through
`empty()`).  `Datapoint`/`Reading`/`OMFHint` come from headers outside
src/: a datapoint is its name, its `DatapointValue` type tag and the text
`getData().toString()` renders; a reading is its asset code, the text
`getAssetDateUserTime(Reading::FMT_STANDARD)` renders and its datapoints;
a hint is its RTTI class plus `getHint()`. -/

/-- The `DatapointValue` type tags distinguished by the emitter. -/
inductive DpType where
  | tString
  | tInteger
  | tFloat
  | tOther
deriving Repr, DecidableEq

/-- A datapoint as `processReading` consumes it. -/
structure DatapointM where
  name : String
  typ : DpType
  valueStr : String
deriving Repr, DecidableEq

/-- A reading as `processReading` consumes it. -/
structure ReadingM where
  assetCode : String
  userTime : String
  datapoints : List DatapointM
deriving Repr, DecidableEq

/-- An OMF hint as the tag-name loop consumes it. -/
inductive HintM where
  | tagName (s : String)
  | tag (s : String)
  | other
deriving Repr, DecidableEq

/-- The emitter state scoped to a north connection. -/
structure OMFState where
  assetSent : List String
  containerSent : List (String × String)
  linkSent : List String
  containers : List String
deriving Repr, DecidableEq

/-- The fresh emitter state of a new connection. -/
def omfEmpty : OMFState := ⟨[], [], [], []⟩

/-- First match in the `m_containerSent` map. -/
def lookupPairs : List (String × String) → String → Option String
  | [], _ => none
  | (k, v) :: rest, key => if k = key then some v else lookupPairs rest key

/-- The reserved hint datapoint name.  Modelled from the spec: the spec
reserves the `OMFHint` datapoint ("Skip the reserved OMFHint datapoint");
the `OMF_HINT` macro lives in OMFHint.h, which is not under src/. -/
def OMF_HINT : String := "OMFHint"

/-- Supported value types.  Modelled from the spec: "datapoints whose
Value tag is not one of String, Integer, Float are silently skipped by
the OMF emitter"; `isTypeSupported` is declared in omf.h, not under
src/. -/
def isTypeSupported (t : DpType) : Bool :=
  match t with
  | .tString => true
  | .tInteger => true
  | .tFloat => true
  | .tOther => false

/-- The tag-name hint loop of `processReading` (linkdata.cpp:42-58): each
`OMFTagNameHint` or `OMFTagHint` in order overrides the asset name. -/
def effectiveAssetName (assetCode : String) (hints : Option (List HintM)) : String :=
  match hints with
  | none => assetCode
  | some hs =>
    hs.foldl
      (fun acc h =>
        match h with
        | .tagName s => s
        | .tag s => s
        | .other => acc)
      assetCode

/-- The `FledgeAsset` data message of linkdata.cpp:71-74. -/
def assetRecord (assetName : String) : String :=
  "\x7b \"typeid\":\"FledgeAsset\", \"values\":[ \x7b \"AssetId\":\"" ++
    assetName ++ "\",\"Name\":\"" ++ assetName ++ "\"\x7d ] \x7d"

/-- The `__Link` message of linkdata.cpp:127-134 (it carries its own
trailing comma). -/
def linkRecord (assetName link : String) : String :=
  "\x7b \"typeid\":\"__Link\",\"values\":[ \x7b \"source\" : \x7b\"typeid\": \"FledgeAsset\",\"index\":\"" ++
    assetName ++ "\" \x7d, \"target\" : \x7b\"containerid\" : \"" ++ link ++
    "\" \x7d \x7d ] \x7d,"

/-- The data value message of linkdata.cpp:140-150. -/
def valueRecord (link baseType valueStr userTime : String) : String :=
  "\x7b\"containerid\": \"" ++ link ++ "\", \"values\": [\x7b\"" ++ baseType ++
    "\": " ++ valueStr ++ ", \"Time\": \"" ++ userTime ++ "Z\"\x7d ] \x7d"

/-- The container object `sendContainer` builds (linkdata.cpp:183-188). -/
def containerObj (linkName baseType dpName : String) : String :=
  "\x7b \"id\" : \"" ++ linkName ++ "\", \"typeid\" : \"" ++ baseType ++
    "\", \"name\" : \"" ++ dpName ++ "\", \"datasource\" : \"Fledge\" \x7d"

/-- The base type `sendContainer` selects from the value's type tag. -/
def baseTypeOf (t : DpType) : String :=
  match t with
  | .tString => "String"
  | .tInteger => "Double"
  | .tFloat => "Double"
  | .tOther => ""

/-- Shallow embedding of `OMFLinkedData::sendContainer`
(linkdata.cpp:164-197): the returned base type and the new pending
container buffer (unchanged for an unsupported type). -/
def sendContainer (containers : List String) (linkName : String)
    (dp : DatapointM) : String × List String :=
  match dp.typ with
  | .tOther => ("", containers)
  | t => (baseTypeOf t, containers ++ [containerObj linkName (baseTypeOf t) dp.name])

/-- One iteration of the datapoint loop of `processReading`
(linkdata.cpp:83-152), threading the output accumulator, the `needDelim`
flag and the emitter state. -/
def processDatapoint (assetName userTime : String)
    (acc : String × Bool × OMFState) (dp : DatapointM) :
    String × Bool × OMFState :=
  let (outData, needDelim, st) := acc
  if dp.name = OMF_HINT then acc
  else if ! isTypeSupported dp.typ then acc
  else
    let outData := if needDelim then outData ++ "," else outData
    let link := assetName ++ "_" ++ dp.name
    let (baseType, st) :=
      match lookupPairs st.containerSent link with
      | none =>
        let p := sendContainer st.containers link dp
        (p.1, { st with
                  containers := p.2
                  containerSent := st.containerSent ++ [(link, p.1)] })
      | some bt => (bt, st)
    if baseType = "" then (outData, true, st)
    else
      let (outData, st) :=
        if st.linkSent.contains link then (outData, st)
        else (outData ++ linkRecord assetName link,
              { st with linkSent := st.linkSent ++ [link] })
      (outData ++ valueRecord link baseType dp.valueStr userTime, true, st)

/-- Shallow embedding of `OMFLinkedData::processReading`
(linkdata.cpp:34-155): the returned message fragment and the new emitter
state. -/
def processReading (st : OMFState) (r : ReadingM)
    (hints : Option (List HintM)) : String × OMFState :=
  let assetName := effectiveAssetName r.assetCode hints
  let (outData, needDelim, st) :=
    if st.assetSent.contains assetName then ("", false, st)
    else (assetRecord assetName, true,
          { st with assetSent := st.assetSent ++ [assetName] })
  let res := r.datapoints.foldl (processDatapoint assetName r.userTime)
    (outData, needDelim, st)
  (res.1, res.2.2)

/-- Processing a sequence of readings on one emitter instance: the emitted
fragments and the final state. -/
def processList (st : OMFState) :
    List (ReadingM × Option (List HintM)) → List String × OMFState
  | [] => ([], st)
  | (r, h) :: rest =>
    let p := processReading st r h
    let q := processList p.2 rest
    (p.1 :: q.1, q.2)

/-- Whether a `processReading` call from state `st` emits the
`FledgeAsset` record for asset name `a` (linkdata.cpp:68-77: exactly when
the effective asset name is `a` and `a` is not yet memoised). -/
def emitsAsset (st : OMFState) (r : ReadingM) (hints : Option (List HintM))
    (a : String) : Bool :=
  effectiveAssetName r.assetCode hints = a && ! st.assetSent.contains a

/-- How many calls of a sequence emit the `FledgeAsset` record for `a`. -/
def assetEmitCount (st : OMFState) :
    List (ReadingM × Option (List HintM)) → String → Nat
  | [], _ => 0
  | (r, h) :: rest, a =>
    (if emitsAsset st r h a then 1 else 0) +
      assetEmitCount (processReading st r h).2 rest a

/-- How many elements of the pending container buffer belong to link `l`
(`sendContainer` appends exactly one such object per invocation for a
supported type). -/
def containerCount (st : OMFState) (l : String) : Nat :=
  (st.containers.filter fun c =>
    c.startsWith ("\x7b \"id\" : \"" ++ l ++ "\", \"typeid\" : \"")).length

/-- How many calls of a sequence emit the `__Link` record for link `l`:
a datapoint iteration emits it exactly when it reaches the link-send step
with `l` not yet memoised, and it memoises `l` at that moment, so the
count is the number of calls across which `l` enters `linkSent`. -/
def linkEmitCount (st : OMFState) :
    List (ReadingM × Option (List HintM)) → String → Nat
  | [], _ => 0
  | (r, h) :: rest, l =>
    let st1 := (processReading st r h).2
    (if ! st.linkSent.contains l && st1.linkSent.contains l then 1 else 0) +
      linkEmitCount st1 rest l

/-- How many calls of a sequence invoke `sendContainer` for link `l`: a
datapoint iteration calls `sendContainer` for `l` exactly when `l` is
absent from the `m_containerSent` map (linkdata.cpp:110-115), and it
inserts `l` into the map in the same iteration, so within one call at
most one `sendContainer` for `l` happens and it happens exactly when `l`
enters the map across that call. -/
def containerEmitCount (st : OMFState) :
    List (ReadingM × Option (List HintM)) → String → Nat
  | [], _ => 0
  | (r, h) :: rest, l =>
    let st1 := (processReading st r h).2
    (if (lookupPairs st.containerSent l).isNone
        && (lookupPairs st1.containerSent l).isSome then 1 else 0) +
      containerEmitCount st1 rest l

/-- The outcome of the single `sender.sendRequest("POST", ...)` call in
`flushContainers`: a status code, the `BadRequest` exception, or any
other exception. -/
inductive HttpOutcome where
  | status (code : Int)
  | badRequest
  | otherExc
deriving Repr, DecidableEq

/-- Shallow embedding of `OMFLinkedData::flushContainers`
(linkdata.cpp:204-250): the boolean result, the pending buffer after the
call and the POSTed payload (`none` when no HTTP request is made). -/
def flushContainers (containers : List String) (outcome : HttpOutcome) :
    Bool × List String × Option String :=
  if containers.isEmpty then (true, containers, none)
  else
    let payload := "[" ++ String.intercalate "," containers ++ "]"
    match outcome with
    | .status code => (decide (200 ≤ code) && decide (code ≤ 299), [], some payload)
    | .badRequest => (false, [], some payload)
    | .otherExc => (false, [], some payload)

/-! ### rapidjson values

The storage engine walks parsed rapidjson documents.  A JSON value is
modelled structurally; `IsInt` holds for integers in `int` (32-bit) range,
`IsInt64` for any modelled integer, and numbers that are not integers
carry the text `SQLBuffer::append(double)` renders for them (SQLBuffer
lives outside src/).  Member access is first-match, as in
`rapidjson::FindMember`; `GetString` on the paths the claims exercise is
always applied to strings, elsewhere it is totalised with `""`. -/

inductive JVal where
  | jnull
  | jbool (b : Bool)
  | jint (i : Int)
  | jdbl (render : String)
  | jstr (s : String)
  | jarr (elems : List JVal)
  | jobj (fields : List (String × JVal))
deriving Repr

/-- First member with the given name (`rapidjson::FindMember`). -/
def lookupField : List (String × JVal) → String → Option JVal
  | [], _ => none
  | (k, v) :: rest, key => if k = key then some v else lookupField rest key

/-- Member access on an object; `none` elsewhere or when absent. -/
def JVal.member : JVal → String → Option JVal
  | .jobj fs, key => lookupField fs key
  | _, _ => none

/-- rapidjson `HasMember`. -/
def JVal.hasMember (v : JVal) (key : String) : Bool := (v.member key).isSome

/-- Member access totalised with null (the claims' paths guard it with
`HasMember`). -/
def JVal.memberD (v : JVal) (key : String) : JVal := (v.member key).getD .jnull

/-- rapidjson `GetString`, totalised with `""` off the string case. -/
def JVal.getStr : JVal → String
  | .jstr s => s
  | _ => ""

/-- rapidjson `IsString`. -/
def JVal.isString : JVal → Bool
  | .jstr _ => true
  | _ => false

/-- rapidjson `IsObject`. -/
def JVal.isObject : JVal → Bool
  | .jobj _ => true
  | _ => false

/-- rapidjson `IsArray`. -/
def JVal.isArray : JVal → Bool
  | .jarr _ => true
  | _ => false

/-- rapidjson `IsNumber`. -/
def JVal.isNumber : JVal → Bool
  | .jint _ => true
  | .jdbl _ => true
  | _ => false

/-- rapidjson `IsInt`: an integer representable in a C `int`. -/
def JVal.isInt : JVal → Bool
  | .jint i => decide (-2147483648 ≤ i) && decide (i ≤ 2147483647)
  | _ => false

/-- rapidjson `IsInt64`. -/
def JVal.isInt64 : JVal → Bool
  | .jint _ => true
  | _ => false

/-- The decimal text `SQLBuffer::append` produces for an integer. -/
def intStr (i : Int) : String := toString i

/-! ### Connection::escape (part_002:2466-2535) -/

/-- Double every single quote of the list. -/
def escapeChars : List Char → List Char
  | [] => []
  | c :: r =>
    if c = '\x27' then '\x27' :: '\x27' :: escapeChars r
    else c :: escapeChars r

/-- `Connection::escape`: when the string has no `'` it is returned
unchanged, otherwise every `'` is doubled — observably, every `'` is
doubled. -/
def escapeQ (s : String) : String := String.mk (escapeChars s.toList)

/-- The text an array element of an `in` list renders to
(part_002:2260-2280): integers and longs in decimal, other numbers by the
double formatter, strings quoted with `'` doubled by `escape`. -/
def inListItem : JVal → Option String
  | .jint i => some (intStr i)
  | .jdbl r => some r
  | .jstr s => some ("\x27" ++ escapeQ s ++ "\x27")
  | _ => none

/-! ### strtod as jsonWhereClause uses it (part_002:2201-2216)

`jsonWhereClause` only asks whether `strtod` consumed the whole column
name (`*p` is then the terminating NUL): the column is emitted bare in
that case and double-quoted otherwise.  The model returns the unconsumed
suffix (`p`): whitespace, an optional sign, decimal digits with an
optional point and an optional well-formed exponent, or the
case-insensitive spellings of infinity and NaN.  Hexadecimal floats and
NaN payloads in parentheses are not modelled (no modelled path feeds
them). -/

/-- ASCII lower-casing for the case-insensitive strtod keywords. -/
def lowerC (c : Char) : Char :=
  if 65 ≤ c.toNat && c.toNat ≤ 90 then Char.ofNat (c.toNat + 32) else c

/-- Case-insensitive keyword test. -/
def startsWithCI (pat : List Char) (s : List Char) : Bool :=
  pat.isPrefixOf (s.take pat.length |>.map lowerC)

/-- The suffix of the input `strtod` leaves unconsumed (the out-pointer
`p`); the whole input when no conversion is performed. -/
def strtodRest (s : List Char) : List Char :=
  let t0 := s.dropWhile isSpaceC
  let t1 := match t0 with
    | '-' :: r => r
    | '+' :: r => r
    | _ => t0
  if startsWithCI "infinity".toList t1 then t1.drop 8
  else if startsWithCI "inf".toList t1 then t1.drop 3
  else if startsWithCI "nan".toList t1 then t1.drop 3
  else
    let ip := t1.takeWhile isDigitC
    let t2 := t1.dropWhile isDigitC
    let fp := match t2 with
      | '.' :: r => r.takeWhile isDigitC
      | _ => []
    let t3 := match t2 with
      | '.' :: r => r.dropWhile isDigitC
      | _ => t2
    if ip = [] && fp = [] then s
    else
      match t3 with
      | c :: r4 =>
        if c = 'e' || c = 'E' then
          let r5 := match r4 with
            | '-' :: x => x
            | '+' :: x => x
            | _ => r4
          if r5.takeWhile isDigitC = [] then t3 else r5.dropWhile isDigitC
        else t3
      | [] => []

/-! ### Connection::jsonWhereClause (part_002:2178-2335)

Errors are modelled as `Except`: `.error (operation, reason)` stands for
`raiseError(operation, reason)` followed by `return false`, `.ok sql` for
`return true` with `sql` appended to the buffer.  The C recursion over
`and`/`or` is unbounded; the model carries a fuel bound on nesting depth,
large enough for every terminating execution it is instantiated at. -/

/-- rapidjson `GetInt`/`GetInt64`, totalised with 0 off the integer case. -/
def JVal.getIntD : JVal → Int
  | .jint i => i
  | _ => 0

/-- The date format macro `F_DATEH24_US` (part_002:40). -/
def fDateH24US : String := "YYYY-MM-DD HH24:MI:SS.US"

/-- The `in` list elements in source order (part_002:2250-2290); `none`
carries the element-type error for the condition name. -/
def inListItems : List JVal → Option (List String)
  | [] => some []
  | v :: rest =>
    match inListItem v with
    | none => none
    | some s =>
      match inListItems rest with
      | none => none
      | some ss => some (s :: ss)

/-- Shallow embedding of `Connection::jsonWhereClause`. -/
def jsonWhereClause : Nat → JVal → Except (String × String) String
  | 0, _ => .error ("where clause", "where clause nesting exceeds the model depth bound")
  | fuel + 1, w =>
    if ! w.isObject then
      .error ("where clause", "The \"where\" property must be a JSON object")
    else if ! w.hasMember "column" then
      .error ("where clause", "The \"where\" object is missing a \"column\" property")
    else if ! w.hasMember "condition" then
      .error ("where clause", "The \"where\" object is missing a \"condition\" property")
    else if ! w.hasMember "value" then
      .error ("where clause", "The \"where\" object is missing a \"value\" property")
    else
      let colName := (w.memberD "column").getStr
      let pre :=
        (if strtodRest colName.toList ≠ [] then "\"" ++ colName ++ "\"" else colName) ++ " "
      let cond := (w.memberD "condition").getStr
      let value := w.memberD "value"
      let core : Except (String × String) String :=
        if cond = "older" then
          if ! value.isInt then
            .error ("where clause", "The \"value\" of an \"older\" condition must be an integer")
          else
            .ok (pre ++ "< now() - INTERVAL \x27" ++ intStr value.getIntD ++ " seconds\x27")
        else if cond = "newer" then
          if ! value.isInt then
            .error ("where clause", "The \"value\" of an \"newer\" condition must be an integer")
          else
            .ok (pre ++ "> now() - INTERVAL \x27" ++ intStr value.getIntD ++ " seconds\x27")
        else if cond = "in" || cond = "not in" then
          match value with
          | .jarr (e :: es) =>
            match inListItems (e :: es) with
            | none =>
              .error ("where clause",
                "The \"value\" of a \"" ++ cond ++
                  "\" condition array element must be a string, integer or double.")
            | some items =>
              .ok (pre ++ cond ++ " ( " ++ String.intercalate ", " items ++ " )")
          | _ =>
            .error ("where clause",
              "The \"value\" of a \"" ++ cond ++
                "\" condition must be an array and must not be empty.")
        else
          .ok (pre ++ cond ++ " " ++
            (if value.isInt then intStr value.getIntD
             else if value.isString then "\x27" ++ escapeQ value.getStr ++ "\x27"
             else ""))
      match core with
      | .error e => .error e
      | .ok s1 =>
        let withAnd : Except (String × String) String :=
          if w.hasMember "and" then
            match jsonWhereClause fuel (w.memberD "and") with
            | .error e => .error e
            | .ok t => .ok (s1 ++ " AND " ++ t)
          else .ok s1
        match withAnd with
        | .error e => .error e
        | .ok s2 =>
          if w.hasMember "or" then
            match jsonWhereClause fuel (w.memberD "or") with
            | .error e => .error e
            | .ok t => .ok (s2 ++ " OR " ++ t)
          else .ok s2

/-- Shallow embedding of `Connection::deleteRows` (part_002:1043-1088).
`condition` is `none` for the empty condition string and `some doc` for a
condition that parses to `doc` (rapidjson parse failures are a further
error path, not needed by the claims).  `.ok sql` is the statement handed
to `PQexec`; `.error (op, reason)` stands for `raiseError(op, reason)`
followed by `return -1` with no statement executed. -/
def deleteRows (fuel : Nat) (table : String) (condition : Option JVal) :
    Except (String × String) String :=
  match condition with
  | none => .ok ("DELETE FROM foglamp." ++ table ++ ";")
  | some doc =>
    if doc.hasMember "where" then
      match jsonWhereClause fuel (doc.memberD "where") with
      | .error e => .error e
      | .ok w => .ok ("DELETE FROM foglamp." ++ table ++ " WHERE " ++ w ++ ";")
    else .error ("delete", "JSON does not contain where clause")

/-! ### Connection::jsonAggregates (part_002:1629-2001) -/

/-- The chain `'p1'SEP'p2'SEP...` of quoted property names, the first one
unseparated. -/
def propsChain (sep : String) : List String → String
  | [] => ""
  | f :: rest =>
    "\x27" ++ f ++ "\x27" ++ String.join (rest.map fun g => sep ++ "\x27" ++ g ++ "\x27")

/-- The existence constraint built alongside a JSON property chain:
`col SEP'p1'...SEP'p_(n-1)' ? 'pn'`. -/
def consChain (sep col : String) (fields : List String) : String :=
  col ++ String.join ((fields.dropLast).map fun p => sep ++ "\x27" ++ p ++ "\x27") ++
    " ? \x27" ++ fields.getLastD "" ++ "\x27"

/-- The alias of an aggregate projection: the given `alias` or the
synthesised `operation_column` (part_002:1772-1783). -/
def aggAlias (agg : JVal) : String :=
  if agg.hasMember "alias" then (agg.memberD "alias").getStr
  else (agg.memberD "operation").getStr ++ "_" ++ (agg.memberD "column").getStr

/-- The single-object branch of `jsonAggregates` (part_002:1639-1784). -/
def aggObjectSql (agg : JVal) (isTableReading : Bool) (cIn : String) :
    Except (String × String) (String × String) :=
  if ! agg.hasMember "operation" then
    .error ("Select aggregation", "Missing property \"operation\"")
  else if ! agg.hasMember "column" && ! agg.hasMember "json" then
    .error ("Select aggregation", "Missing property \"column\" or \"json\"")
  else
    let columnName := (agg.memberD "column").getStr
    let op := (agg.memberD "operation").getStr
    let body : Except (String × String) (String × String) :=
      if agg.hasMember "column" then
        if op ≠ "count" then
          if isTableReading && columnName = "user_ts" then
            .ok ("to_char(user_ts, \x27" ++ fDateH24US ++ "\x27)", cIn)
          else
            .ok ("\"" ++ columnName ++ "\"", cIn)
        else
          .ok (columnName, cIn)
      else
        let json := agg.memberD "json"
        if ! json.isObject then
          .error ("Select aggregation", "The json property must be an object")
        else if ! json.hasMember "column" then
          .error ("retrieve", "The json property is missing a column property")
        else if ! json.hasMember "properties" then
          .error ("retrieve", "The json property is missing a properties property")
        else
          let col := (json.memberD "column").getStr
          let props := json.memberD "properties"
          match props with
          | .jarr elems =>
            let fields := elems.map JVal.getStr
            .ok ("(" ++ "\"" ++ col ++ "\"" ++ "->" ++ propsChain "->>" fields ++ ")::float",
              (if cIn ≠ "" then cIn ++ " AND " else cIn) ++ consChain "->>" col fields)
          | _ =>
            .ok ("(" ++ "\"" ++ col ++ "\"" ++ "->" ++ "\x27" ++ props.getStr ++ "\x27" ++ ")::float",
              (if cIn ≠ "" then cIn ++ " AND " else cIn) ++ col ++ " ? \x27" ++ props.getStr ++ "\x27")
    match body with
    | .error e => .error e
    | .ok (b, c1) => .ok (op ++ "(" ++ b ++ ") AS \"" ++ aggAlias agg ++ "\"", c1)

/-- One element of the array branch of `jsonAggregates`
(part_002:1788-1901).  This branch substitutes `to_char` for `user_ts`
without consulting `isTableReading` and without excluding `count`. -/
def aggArrayItem (item : JVal) (cIn : String) :
    Except (String × String) (String × String) :=
  if ! item.isObject then
    .error ("select aggregation", "Each element in the aggregate array must be an object")
  else if ! item.hasMember "column" && ! item.hasMember "json" then
    .error ("Select aggregation", "Missing property \"column\"")
  else if ! item.hasMember "operation" then
    .error ("Select aggregation", "Missing property \"operation\"")
  else
    let op := (item.memberD "operation").getStr
    let body : Except (String × String) (String × String) :=
      if item.hasMember "column" then
        if (item.memberD "column").getStr = "user_ts" then
          .ok ("to_char(user_ts, \x27" ++ fDateH24US ++ "\x27)", cIn)
        else
          .ok ("\"" ++ (item.memberD "column").getStr ++ "\"", cIn)
      else
        let json := item.memberD "json"
        if ! json.isObject then
          .error ("Select aggregation", "The json property must be an object")
        else if ! json.hasMember "column" then
          .error ("retrieve", "The json property is missing a column property")
        else if ! json.hasMember "properties" then
          .error ("retrieve", "The json property is missing a properties property")
        else
          let col := (json.memberD "column").getStr
          let props := json.memberD "properties"
          let cons0 := (if cIn ≠ "" then cIn ++ " AND " else cIn) ++ col
          match props with
          | .jarr elems =>
            let fields := elems.map JVal.getStr
            .ok ("(" ++ "\"" ++ col ++ "\"" ++
                String.join (fields.map fun f => "->>\x27" ++ f ++ "\x27") ++ ")::float",
              cons0 ++ String.join ((fields.dropLast).map fun p => "->>\x27" ++ p ++ "\x27") ++
                " ? \x27" ++ fields.getLastD "" ++ "\x27")
          | _ =>
            .ok ("(" ++ "\"" ++ col ++ "\"" ++ "->>\x27" ++ props.getStr ++ "\x27" ++ ")::float",
              cons0 ++ " ? \x27" ++ props.getStr ++ "\x27")
    match body with
    | .error e => .error e
    | .ok (b, c1) => .ok (op ++ "(" ++ b ++ ") AS \"" ++ aggAlias item ++ "\"", c1)

/-- The fold over the aggregate array, `", "`-separating elements. -/
def aggArrayFold : List JVal → String → String → Nat →
    Except (String × String) (String × String)
  | [], cIn, acc, _ => .ok (acc, cIn)
  | it :: rest, cIn, acc, index =>
    match aggArrayItem it cIn with
    | .error e => .error e
    | .ok (s, c1) =>
      aggArrayFold rest c1 (acc ++ (if index ≠ 0 then ", " else "") ++ s) (index + 1)

/-- The `group` projection `jsonAggregates` appends (part_002:1903-1944). -/
def aggGroupPart (payload : JVal) : String :=
  if payload.hasMember "group" then
    let grp := payload.memberD "group"
    ", " ++
      (if grp.isObject then
        (if grp.hasMember "format" then
          "to_char(" ++ "\"" ++ (grp.memberD "column").getStr ++ "\"" ++ ", \x27" ++
            (grp.memberD "format").getStr ++ "\x27)"
        else
          "\"" ++ (grp.memberD "column").getStr ++ "\"") ++
        " AS \"" ++
          (if grp.hasMember "alias" then (grp.memberD "alias").getStr
           else (grp.memberD "column").getStr) ++ "\""
      else
        "\"" ++ grp.getStr ++ "\"")
  else ""

/-- The `timebucket` projection `jsonAggregates` appends
(part_002:1945-1999). -/
def aggTimebucketPart (payload : JVal) : Except (String × String) String :=
  if payload.hasMember "timebucket" then
    let tb := payload.memberD "timebucket"
    if ! tb.isObject then
      .error ("Select data", "The \"timebucket\" property must be an object")
    else if ! tb.hasMember "timestamp" then
      .error ("Select data", "The \"timebucket\" object must have a timestamp property")
    else
      let hasF := tb.hasMember "format"
      let hasS := tb.hasMember "size"
      let sz := (tb.memberD "size").getStr
      .ok ((if hasF then ", to_char(to_timestamp(" else ", to_timestamp(") ++
        (if hasS then sz ++ " * " else "") ++
        "floor(extract(epoch from " ++ (tb.memberD "timestamp").getStr ++ ") / " ++
        (if hasS then sz else "1") ++ "))" ++
        (if hasF then ", \x27" ++ (tb.memberD "format").getStr ++ "\x27)" else "") ++
        " AS \"" ++
          (if tb.hasMember "alias" then (tb.memberD "alias").getStr else "timestamp") ++
        "\"")
  else .ok ""

/-- Shallow embedding of `Connection::jsonAggregates`: the projection list
and the updated json-existence constraint buffer. -/
def jsonAggregates (payload aggregates : JVal) (isTableReading : Bool)
    (cIn : String) : Except (String × String) (String × String) :=
  let core : Except (String × String) (String × String) :=
    if aggregates.isObject then aggObjectSql aggregates isTableReading cIn
    else
      match aggregates with
      | .jarr items => aggArrayFold items cIn "" 0
      | _ => .ok ("", cIn)
  match core with
  | .error e => .error e
  | .ok (s, c1) =>
    match aggTimebucketPart payload with
    | .error e => .error e
    | .ok tbs => .ok (s ++ aggGroupPart payload ++ tbs, c1)

/-! ### Connection::jsonModifiers (part_002:2006-2171) -/

/-- The `GROUP BY` clause of `jsonModifiers` (part_002:2014-2037); an
object group without a `format` appends nothing after the keyword. -/
def modGroupPart (payload : JVal) : String :=
  if payload.hasMember "group" then
    let grp := payload.memberD "group"
    " GROUP BY " ++
      (if grp.isObject then
        (if grp.hasMember "format" then
          "to_char(" ++ "\"" ++ (grp.memberD "column").getStr ++ "\"" ++ ", \x27" ++
            (grp.memberD "format").getStr ++ "\x27)"
        else "")
      else "\"" ++ grp.getStr ++ "\"")
  else ""

/-- One sort specification: `"column" direction` with `ASC` as the default
direction. -/
def sortOne (sb : JVal) : String :=
  "\"" ++ (sb.memberD "column").getStr ++ "\"" ++ " " ++
    (if ! sb.hasMember "direction" then "ASC" else (sb.memberD "direction").getStr)

/-- The fold over a sort array (part_002:2063-2095). -/
def sortArrayFold : List JVal → Nat → String → Except (String × String) String
  | [], _, acc => .ok acc
  | it :: rest, index, acc =>
    if ! it.isObject then
      .error ("select sort", "Each element in the sort array must be an object")
    else if ! it.hasMember "column" then
      .error ("Select sort", "Missing property \"column\"")
    else
      sortArrayFold rest (index + 1)
        (acc ++ (if index ≠ 0 then ", " else "") ++ sortOne it)

/-- The `ORDER BY` clause of `jsonModifiers` (part_002:2039-2096); a sort
value that is neither object nor array leaves the bare keyword. -/
def sortPart (payload : JVal) : Except (String × String) String :=
  if payload.hasMember "sort" then
    let sb := payload.memberD "sort"
    if sb.isObject then
      if ! sb.hasMember "column" then
        .error ("Select sort", "Missing property \"column\"")
      else .ok (" ORDER BY " ++ sortOne sb)
    else
      match sb with
      | .jarr items =>
        match sortArrayFold items 0 "" with
        | .error e => .error e
        | .ok s => .ok (" ORDER BY " ++ s)
      | _ => .ok " ORDER BY "
  else .ok ""

/-- The timebucket grouping and ordering of `jsonModifiers`
(part_002:2098-2143). -/
def modTimebucketPart (payload : JVal) : Except (String × String) String :=
  if payload.hasMember "timebucket" then
    let tb := payload.memberD "timebucket"
    if ! tb.isObject then
      .error ("Select data", "The \"timebucket\" property must be an object")
    else if ! tb.hasMember "timestamp" then
      .error ("Select data", "The \"timebucket\" object must have a timestamp property")
    else
      let fl := "floor(extract(epoch from " ++ (tb.memberD "timestamp").getStr ++
        ") / " ++ (if tb.hasMember "size" then (tb.memberD "size").getStr else "1") ++ ")"
      .ok ((if payload.hasMember "group" then ", " else " GROUP BY ") ++ fl ++
        " ORDER BY " ++ fl ++ " DESC")
  else .ok ""

/-- The `OFFSET` clause (part_002:2145-2154). -/
def skipPart (payload : JVal) : Except (String × String) String :=
  if payload.hasMember "skip" then
    if ! (payload.memberD "skip").isInt then
      .error ("skip", "Skip must be specfied as an integer")
    else .ok (" OFFSET " ++ intStr (payload.memberD "skip").getIntD)
  else .ok ""

/-- The `LIMIT` clause (part_002:2156-2170). -/
def limitPart (payload : JVal) : Except (String × String) String :=
  if payload.hasMember "limit" then
    if ! (payload.memberD "limit").isInt then
      .error ("limit", "Limit must be specfied as an integer")
    else .ok (" LIMIT " ++ intStr (payload.memberD "limit").getIntD)
  else .ok ""

/-- Shallow embedding of `Connection::jsonModifiers`. -/
def jsonModifiers (payload : JVal) : Except (String × String) String :=
  if payload.hasMember "timebucket" && payload.hasMember "sort" then
    .error ("query modifiers", "Sort and timebucket modifiers can not be used in the same payload")
  else
    match sortPart payload with
    | .error e => .error e
    | .ok so =>
      match modTimebucketPart payload with
      | .error e => .error e
      | .ok tbs =>
        match skipPart payload with
        | .error e => .error e
        | .ok sk =>
          match limitPart payload with
          | .error e => .error e
          | .ok li => .ok (modGroupPart payload ++ so ++ tbs ++ sk ++ li)

/-! ### Connection::retrieveReadings (part_002:307-611) -/

/-- The raw canonical projection used when the condition is empty
(part_002:326-334), newlines and tabs as in the source literal. -/
def rawSelectReadings : String :=
  "\n\t\t\t\t\tSELECT\n\t\t\t\t\t\tid,\n\t\t\t\t\t\tasset_code,\n\t\t\t\t\t\tread_key,\n\t\t\t\t\t\treading,\n\t\t\t\t\t\tto_char(user_ts, \x27" ++
    fDateH24US ++ "\x27) as user_ts,\n\t\t\t\t\t\tto_char(ts, \x27" ++ fDateH24US ++
    "\x27) as ts\n\t\t\t\t\tFROM foglamp."

/-- The raw canonical column list used when the condition has neither
`aggregate` nor `return` (part_002:530-537). -/
def rawColsReadings : String :=
  "\n\t\t\t\t\t\tid,\n\t\t\t\t\t\tasset_code,\n\t\t\t\t\t\tread_key,\n\t\t\t\t\t\treading,\n\t\t\t\t\t\tto_char(user_ts, \x27" ++
    fDateH24US ++ "\x27) as user_ts,\n\t\t\t\t\t\tto_char(ts, \x27" ++ fDateH24US ++
    "\x27) as ts\n\t\t\t\t\tFROM foglamp."

/-- The `returnJson` helper (part_002:2337-2404): the projection text and
the updated constraint buffer. -/
def returnJsonPart (json : JVal) (cIn : String) :
    Except (String × String) (String × String) :=
  if ! json.isObject then
    .error ("retrieve", "The json property must be an object")
  else if ! json.hasMember "column" then
    .error ("retrieve", "The json property is missing a column property")
  else if ! json.hasMember "properties" then
    .error ("retrieve", "The json property is missing a properties property")
  else
    let col := (json.memberD "column").getStr
    let props := json.memberD "properties"
    match props with
    | .jarr elems =>
      let fields := elems.map JVal.getStr
      .ok (col ++ "->" ++ propsChain "->" fields,
        (if cIn ≠ "" then cIn ++ " AND " else cIn) ++ consChain "->" col fields)
    | _ =>
      .ok (col ++ "->" ++ "\x27" ++ props.getStr ++ "\x27",
        (if cIn ≠ "" then cIn ++ " AND " else cIn) ++ col ++ " ? \x27" ++
          props.getStr ++ "\x27")

/-- One object element of the `return` array (part_002:413-511). -/
def returnColObject (itr : JVal) (cIn : String) :
    Except (String × String) (String × String) :=
  let core : Except (String × String) (String × String) :=
    if itr.hasMember "column" then
      if ! (itr.memberD "column").isString then
        .error ("rerieve", "column must be a string")
      else
        let col := (itr.memberD "column").getStr
        if itr.hasMember "format" then
          if ! (itr.memberD "format").isString then
            .error ("rerieve", "format must be a string")
          else
            .ok ("to_char(" ++ "\"" ++ col ++ "\"" ++ ", \x27" ++
              (itr.memberD "format").getStr ++ "\x27)" ++ " ", cIn)
        else if itr.hasMember "timezone" then
          if ! (itr.memberD "timezone").isString then
            .error ("rerieve", "timezone must be a string")
          else
            .ok ("\"" ++ col ++ "\"" ++ " AT TIME ZONE \x27" ++
              (itr.memberD "timezone").getStr ++ "\x27 " ++ " ", cIn)
        else if col = "user_ts" then
          .ok ("to_char(user_ts, \x27" ++ fDateH24US ++ "\x27)" ++
            (if ! itr.hasMember "alias" then " AS \"user_ts\" " else "") ++ " ", cIn)
        else if col = "ts" then
          .ok ("to_char(ts, \x27" ++ fDateH24US ++ "\x27)" ++
            (if ! itr.hasMember "alias" then " AS \"ts\" " else "") ++ " ", cIn)
        else
          .ok ("\"" ++ col ++ "\"" ++ " ", cIn)
    else if itr.hasMember "json" then
      returnJsonPart (itr.memberD "json") cIn
    else
      .error ("retrieve", "return object must have either a column or json property")
  match core with
  | .error e => .error e
  | .ok (s, c1) =>
    .ok (s ++ (if itr.hasMember "alias" then
        " AS \"" ++ (itr.memberD "alias").getStr ++ "\"" else ""), c1)

/-- The fold over the `return` array (part_002:386-514). -/
def returnFold : List JVal → Nat → String → String →
    Except (String × String) (String × String)
  | [], _, acc, cons => .ok (acc, cons)
  | it :: rest, col, acc, cons =>
    let sep := if col ≠ 0 then ", " else ""
    if ! it.isObject then
      let frag :=
        if it.getStr = "user_ts" then
          "to_char(user_ts, \x27" ++ fDateH24US ++ "\x27) as user_ts"
        else if it.getStr = "ts" then
          "to_char(ts, \x27" ++ fDateH24US ++ "\x27) as ts"
        else "\"" ++ it.getStr ++ "\""
      returnFold rest (col + 1) (acc ++ sep ++ frag) cons
    else
      match returnColObject it cons with
      | .error e => .error e
      | .ok (s, c1) => returnFold rest (col + 1) (acc ++ sep ++ s) c1

/-- Shallow embedding of `Connection::retrieveReadings`: `condition` is
`none` for the empty condition string, `some doc` for a condition parsing
to `doc`; `.ok sql` is the statement handed to `PQexec`. -/
def retrieveReadings (fuel : Nat) (condition : Option JVal) :
    Except (String × String) String :=
  match condition with
  | none => .ok (rawSelectReadings ++ "readings" ++ ";")
  | some doc =>
    let modifier :=
      if doc.hasMember "modifier" then (doc.memberD "modifier").getStr ++ " " else ""
    let head : Except (String × String) (String × String) :=
      if doc.hasMember "aggregate" then
        match jsonAggregates doc (doc.memberD "aggregate") true "" with
        | .error e => .error e
        | .ok (agg, cons) => .ok ("SELECT " ++ modifier ++ agg ++ " FROM foglamp.", cons)
      else if doc.hasMember "return" then
        match doc.memberD "return" with
        | .jarr items =>
          match returnFold items 0 "" "" with
          | .error e => .error e
          | .ok (cols, cons) =>
            .ok ("SELECT " ++ modifier ++ cols ++ " FROM foglamp.", cons)
        | _ => .error ("retrieve", "The property return must be an array")
      else
        .ok ("SELECT " ++ modifier ++ rawColsReadings, "")
    match head with
    | .error e => .error e
    | .ok (h, cons) =>
      let afterTable := h ++ "readings"
      let withWhere : Except (String × String) String :=
        if doc.hasMember "where" then
          match jsonWhereClause fuel (doc.memberD "where") with
          | .error e => .error e
          | .ok w =>
            .ok (afterTable ++ " WHERE " ++ w ++
              (if cons ≠ "" then " AND " ++ cons else ""))
        else .ok afterTable
      match withWhere with
      | .error e => .error e
      | .ok s1 =>
        match jsonModifiers doc with
        | .error e => .error e
        | .ok m => .ok (s1 ++ m ++ ";")

/-! ### Connection::appendReadings (part_002:1210-1340)

The payload elements the claims quantify over are reading objects carrying
a string `user_ts`, an `asset_code`, an optional `read_key` and a
`reading` value whose rapidjson serialisation is carried as text.  The
returned number mirrors `PQcmdTuples` of the multi-row `INSERT`: the
number of value tuples the statement carries. -/

/-- One element of the `readings` payload array. -/
structure AppendRow where
  userTs : String
  assetCode : String
  readKey : Option String
  readingJson : String
deriving Repr, DecidableEq

/-- The ECMAScript line terminators that `.` in a `std::regex` does not
match. -/
def isLineTerm (c : Char) : Bool :=
  c = '\n' || c = '\r' || c.toNat = 8232 || c.toNat = 8233

/-- ASCII letter test for the first regex character class. -/
def isAlphaC (c : Char) : Bool :=
  (65 ≤ c.toNat && c.toNat ≤ 90) || (97 ≤ c.toNat && c.toNat ≤ 122)

/-- ASCII letter, digit or underscore for the second class. -/
def isWordC (c : Char) : Bool :=
  isAlphaC c || isDigitC c || c = '_'

/-- The full-match test `regex_match(s, "[a-zA-Z][a-zA-Z0-9_]*\(.*\)")`
of part_002:1250-1251: a letter, a run of word characters, a `(`, any
characters without a line terminator, and a final `)`. -/
def isFnCallRegex (s : String) : Bool :=
  let cs := s.toList
  let pre := cs.takeWhile (fun c => c ≠ '(')
  let post := cs.dropWhile (fun c => c ≠ '(')
  match pre, post with
  | p :: ps, _ :: body =>
    isAlphaC p && ps.all isWordC &&
      (match body.reverse with
       | ')' :: midRev => (midRev.reverse).all fun c => ! isLineTerm c
       | _ => false)
  | _, _ => false

/-- One value tuple of the generated `INSERT` (part_002:1253-1315):
`userTsSql` is the raw function call or the quoted formatted date. -/
def rowTuple (r : AppendRow) (userTsSql : String) : String :=
  "(" ++ userTsSql ++ ",\x27" ++ r.assetCode ++
    (match r.readKey with
     | some k => if k ≠ "None" then "\x27, \x27" ++ k ++ "\x27, \x27" else "\x27, NULL, \x27"
     | none => "\x27, NULL, \x27") ++
    r.readingJson ++ "\x27 " ++ ")"

/-- Whether a payload row is accepted: a function-call `user_ts` is passed
through, otherwise `formatDate` must succeed. -/
def appendRowSql (r : AppendRow) : Option String :=
  if isFnCallRegex r.userTs then some (rowTuple r r.userTs)
  else
    match formatDate r.userTs.toList with
    | none => none
    | some fd => some (rowTuple r ("\x27" ++ String.mk fd ++ "\x27"))

/-- The loop of `appendReadings`, threading the tuple accumulator, the
`row` counter and the raised errors. -/
def appendLoop : List AppendRow → String → Nat → List String →
    String × Nat × List String
  | [], acc, row, errs => (acc, row, errs)
  | r :: rest, acc, row, errs =>
    match appendRowSql r with
    | none =>
      appendLoop rest acc row (errs ++ ["Invalid date |" ++ r.userTs ++ "|"])
    | some tup =>
      appendLoop rest (acc ++ (if row ≠ 0 then ", " else "") ++ tup) (row + 1) errs

/-- Shallow embedding of `Connection::appendReadings`: the generated
`INSERT` statement, the number of value tuples it carries (what
`PQcmdTuples` reports on success, hence the returned row count) and the
`"Invalid date"` errors raised along the way. -/
def appendReadings (rows : List AppendRow) : String × Nat × List String :=
  let p := appendLoop rows "" 0 []
  ("INSERT INTO foglamp.readings ( user_ts, asset_code, read_key, reading ) VALUES " ++
      p.1 ++ ";",
    p.2.1, p.2.2)

/-- The tuple list rendered the way the `appendReadings` accumulator
glues it from counter `row` onwards: the first tuple is preceded by
`", "` exactly when `row ≠ 0`, every later one always. -/
def glueTuples (row : Nat) : List String → String
  | [] => ""
  | t :: ts => (if row ≠ 0 then ", " else "") ++ t ++ glueTuples 1 ts

/-- The head of the list, if any, is not a digit (where the scans stop). -/
def headStops (l : List Char) : Prop :=
  match l with
  | [] => True
  | c :: _ => isDigitC c = false

/-! ## Lemmas and theorems -/

/-! ### Digit characters and digit runs -/

theorem digit_not_space {c : Char} (h : isDigitC c = true) : isSpaceC c = false := by
  simp only [isDigitC, Bool.and_eq_true, decide_eq_true_eq] at h
  simp only [isSpaceC, Bool.or_eq_false_iff, Bool.and_eq_false_iff, decide_eq_false_iff_not]
  omega

theorem digit_ne_dash {c : Char} (h : isDigitC c = true) : (c = '-' || c = '+') = false := by
  have h1 : ¬ (c = '-') := by intro e; rw [e] at h; exact absurd h (by decide)
  have h2 : ¬ (c = '+') := by intro e; rw [e] at h; exact absurd h (by decide)
  simp [h1, h2]

theorem isDigitC_digitChar {n : Nat} (h : n < 10) : isDigitC (digitChar n) = true := by
  interval_cases n <;> decide

theorem isSpaceC_digitChar {n : Nat} (h : n < 10) : isSpaceC (digitChar n) = false :=
  digit_not_space (isDigitC_digitChar h)

theorem digitVal_digitChar {n : Nat} (h : n < 10) : digitVal (digitChar n) = n := by
  interval_cases n <;> decide

theorem dropWhile_space_digit {c : Char} (h : isDigitC c = true) (l : List Char) :
    (c :: l).dropWhile isSpaceC = c :: l := by
  simp [List.dropWhile_cons, digit_not_space h]

theorem dropSign_digit {c : Char} (h : isDigitC c = true) (l : List Char) :
    dropSign (c :: l) = c :: l := by
  simp [dropSign, digit_ne_dash h]

theorem dropWhile_digits {ds rest : List Char} (hds : digitsOk ds)
    (hrest : headStops rest) : (ds ++ rest).dropWhile isDigitC = rest := by
  induction ds with
  | nil =>
    cases rest with
    | nil => rfl
    | cons c l =>
      have hc : isDigitC c = false := hrest
      simp [List.dropWhile_cons, hc]
  | cons c ds ih =>
    have hc : isDigitC c = true := hds c (by simp)
    have : digitsOk ds := fun x hx => hds x (by simp [hx])
    simp [List.dropWhile_cons, hc, ih this]

theorem takeWhile_digits {ds rest : List Char} (hds : digitsOk ds)
    (hrest : headStops rest) : (ds ++ rest).takeWhile isDigitC = ds := by
  induction ds with
  | nil =>
    cases rest with
    | nil => rfl
    | cons c l =>
      have hc : isDigitC c = false := hrest
      simp [List.takeWhile_cons, hc]
  | cons c ds ih =>
    have hc : isDigitC c = true := hds c (by simp)
    have : digitsOk ds := fun x hx => hds x (by simp [hx])
    simp [List.takeWhile_cons, hc, ih this]

theorem scanfNum_run {ds rest : List Char} (hne : ds ≠ []) (hds : digitsOk ds)
    (hrest : headStops rest) : scanfNum (ds ++ rest) = some rest := by
  cases ds with
  | nil => exact absurd rfl hne
  | cons c l =>
    have hc : isDigitC c = true := hds c (by simp)
    have hl : digitsOk l := fun x hx => hds x (by simp [hx])
    simp only [scanfNum, List.cons_append, dropWhile_space_digit hc, dropSign_digit hc, hc,
      if_true]
    have := @dropWhile_digits (c :: l) _ hds hrest
    simpa [List.dropWhile_cons, hc] using this

theorem digitsOk_pad2 {v : Nat} (h : v < 100) : digitsOk (pad2 v) := by
  intro c hc
  simp only [pad2, List.mem_cons, List.mem_singleton, List.not_mem_nil] at hc
  rcases hc with rfl | rfl | h0
  · exact isDigitC_digitChar (by omega)
  · exact isDigitC_digitChar (by omega)
  · cases h0

theorem digitsOk_pad4 {v : Nat} (h : v ≤ 9999) : digitsOk (pad4 v) := by
  intro c hc
  simp only [pad4, List.mem_cons, List.mem_singleton, List.not_mem_nil] at hc
  rcases hc with rfl | rfl | rfl | rfl | h0
  · exact isDigitC_digitChar (by omega)
  · exact isDigitC_digitChar (by omega)
  · exact isDigitC_digitChar (by omega)
  · exact isDigitC_digitChar (by omega)
  · cases h0

theorem digitsOk_yearChars {y : Nat} (h : y ≤ 9999) : digitsOk (yearChars y) := by
  intro c hc
  unfold yearChars at hc
  split at hc
  · simp only [List.mem_singleton] at hc
    subst hc; exact isDigitC_digitChar (by omega)
  · split at hc
    · simp only [List.mem_cons, List.mem_singleton, List.not_mem_nil] at hc
      rcases hc with rfl | rfl | h0
      · exact isDigitC_digitChar (by omega)
      · exact isDigitC_digitChar (by omega)
      · cases h0
    · split at hc
      · simp only [List.mem_cons, List.mem_singleton, List.not_mem_nil] at hc
        rcases hc with rfl | rfl | rfl | h0
        · exact isDigitC_digitChar (by omega)
        · exact isDigitC_digitChar (by omega)
        · exact isDigitC_digitChar (by omega)
        · cases h0
      · simp only [List.mem_cons, List.mem_singleton, List.not_mem_nil] at hc
        rcases hc with rfl | rfl | rfl | rfl | h0
        · exact isDigitC_digitChar (by omega)
        · exact isDigitC_digitChar (by omega)
        · exact isDigitC_digitChar (by omega)
        · exact isDigitC_digitChar (by omega)
        · cases h0

theorem yearChars_ne_nil {y : Nat} : yearChars y ≠ [] := by
  unfold yearChars
  split
  · simp
  · split
    · simp
    · split <;> simp

/-! ### get_number on padded fields -/

theorem getNumLoop_stop {hi fuel v : Nat} {rest : List Char} (hrest : headStops rest) :
    getNumLoop hi fuel v rest = (v, rest) := by
  cases fuel with
  | zero => rfl
  | succ f =>
    cases rest with
    | nil => rfl
    | cons c l =>
      have hc : isDigitC c = false := hrest
      simp [getNumLoop, hc]

theorem getNumber_pad2 {lo hi : Nat} (v : Nat) {rest : List Char} (h100 : v < 100)
    (hlo : lo ≤ v) (hhi : v ≤ hi) (hstep : v / 10 * 10 ≤ hi) :
    getNumber lo hi 2 (pad2 v ++ rest) = some (v, rest) := by
  have ha : v / 10 < 10 := by omega
  have hb : v % 10 < 10 := by omega
  have hsum : v / 10 * 10 + v % 10 = v := by omega
  simp only [pad2, List.cons_append, List.nil_append]
  simp only [getNumber, dropWhile_space_digit (isDigitC_digitChar ha),
    isDigitC_digitChar ha, if_true, getNumLoop, digitVal_digitChar ha,
    digitVal_digitChar hb, isDigitC_digitChar hb, decide_eq_true hstep,
    Bool.true_and, Bool.and_true, if_true, hsum, decide_eq_true hlo,
    decide_eq_true hhi, Bool.and_self]

theorem getNumber_pad4 (v : Nat) {rest : List Char} (hv : v ≤ 9999) :
    getNumber 0 9999 4 (pad4 v ++ rest) = some (v, rest) := by
  have h1 : v / 1000 < 10 := by omega
  have h2 : v / 100 % 10 < 10 := by omega
  have h3 : v / 10 % 10 < 10 := by omega
  have h4 : v % 10 < 10 := by omega
  have s1 : v / 1000 * 10 ≤ 9999 := by omega
  have e1 : v / 1000 * 10 + v / 100 % 10 = v / 100 := by omega
  have s2 : v / 100 * 10 ≤ 9999 := by omega
  have e2 : v / 100 * 10 + v / 10 % 10 = v / 10 := by omega
  have s3 : v / 10 * 10 ≤ 9999 := by omega
  have e3 : v / 10 * 10 + v % 10 = v := by omega
  simp only [pad4, List.cons_append, List.nil_append]
  simp only [getNumber, dropWhile_space_digit (isDigitC_digitChar h1),
    isDigitC_digitChar h1, if_true, getNumLoop, digitVal_digitChar h1,
    digitVal_digitChar h2, digitVal_digitChar h3, digitVal_digitChar h4,
    isDigitC_digitChar h2, isDigitC_digitChar h3, isDigitC_digitChar h4,
    decide_eq_true s1, Bool.true_and, Bool.and_true, if_true, e1,
    decide_eq_true s2, e2, decide_eq_true s3, e3, Nat.zero_le,
    decide_eq_true hv, decide_eq_true (Nat.zero_le v), Bool.and_self,
    decide_True, Bool.true_and, if_true]

theorem getNumber_year (y : Nat) {rest : List Char} (hy : y ≤ 9999)
    (hrest : headStops rest) :
    getNumber 0 9999 4 (yearChars y ++ rest) = some (y, rest) := by
  by_cases c1 : y < 10
  · simp only [yearChars, if_pos c1, List.cons_append, List.nil_append]
    cases rest with
    | nil =>
      simp [getNumber, getNumLoop, dropWhile_space_digit (isDigitC_digitChar c1),
        isDigitC_digitChar c1, digitVal_digitChar c1, hy]
    | cons c l =>
      have hc : isDigitC c = false := hrest
      simp [getNumber, getNumLoop, dropWhile_space_digit (isDigitC_digitChar c1),
        isDigitC_digitChar c1, digitVal_digitChar c1, hc, hy]
  · by_cases c2 : y < 100
    · have ha : y / 10 < 10 := by omega
      have hb : y % 10 < 10 := by omega
      have hs : y / 10 * 10 ≤ 9999 := by omega
      have he : y / 10 * 10 + y % 10 = y := by omega
      simp only [yearChars, if_neg c1, if_pos c2, List.cons_append, List.nil_append]
      cases rest with
      | nil =>
        simp [getNumber, getNumLoop, dropWhile_space_digit (isDigitC_digitChar ha),
          isDigitC_digitChar ha, digitVal_digitChar ha, digitVal_digitChar hb,
          isDigitC_digitChar hb, decide_eq_true hs, he, hy]
      | cons c l =>
        have hc : isDigitC c = false := hrest
        simp [getNumber, getNumLoop, dropWhile_space_digit (isDigitC_digitChar ha),
          isDigitC_digitChar ha, digitVal_digitChar ha, digitVal_digitChar hb,
          isDigitC_digitChar hb, decide_eq_true hs, he, hc, hy]
    · by_cases c3 : y < 1000
      · have ha : y / 100 < 10 := by omega
        have hb : y / 10 % 10 < 10 := by omega
        have hcd : y % 10 < 10 := by omega
        have s1 : y / 100 * 10 ≤ 9999 := by omega
        have e1 : y / 100 * 10 + y / 10 % 10 = y / 10 := by omega
        have s2 : y / 10 * 10 ≤ 9999 := by omega
        have e2 : y / 10 * 10 + y % 10 = y := by omega
        simp only [yearChars, if_neg c1, if_neg c2, if_pos c3, List.cons_append,
          List.nil_append]
        cases rest with
        | nil =>
          simp [getNumber, getNumLoop, dropWhile_space_digit (isDigitC_digitChar ha),
            isDigitC_digitChar ha, digitVal_digitChar ha, digitVal_digitChar hb,
            digitVal_digitChar hcd, isDigitC_digitChar hb, isDigitC_digitChar hcd,
            decide_eq_true s1, e1, decide_eq_true s2, e2, hy]
        | cons c l =>
          have hc : isDigitC c = false := hrest
          simp [getNumber, getNumLoop, dropWhile_space_digit (isDigitC_digitChar ha),
            isDigitC_digitChar ha, digitVal_digitChar ha, digitVal_digitChar hb,
            digitVal_digitChar hcd, isDigitC_digitChar hb, isDigitC_digitChar hcd,
            decide_eq_true s1, e1, decide_eq_true s2, e2, hc, hy]
      · have hy4 : yearChars y = pad4 y := by
          have h1 : y / 1000 % 10 = y / 1000 := by omega
          simp only [yearChars, if_neg c1, if_neg c2, if_neg c3, pad4, h1]
        rw [hy4]
        exact getNumber_pad4 y hy

/-! ### Assembly lemmas for formatDate on grammar inputs -/

theorem litC_self (c : Char) (l : List Char) : litC c (c :: l) = some l := by
  simp [litC]

theorem headStops_of (c : Char) (h : isDigitC c = false) {l : List Char} :
    headStops (c :: l) := h

theorem headStops_nil : headStops ([] : List Char) := trivial

theorem pad2_ne_nil (v : Nat) : pad2 v ≠ [] := by simp [pad2]

theorem pad4_ne_nil (v : Nat) : pad4 v ≠ [] := by simp [pad4]

theorem dropWhile_space_sp (l : List Char) :
    (' ' :: l).dropWhile isSpaceC = l.dropWhile isSpaceC := by
  simp [List.dropWhile_cons, isSpaceC]

theorem dropWhile_space_pad2 (v : Nat) (hv : v < 100) (l : List Char) :
    (pad2 v ++ l).dropWhile isSpaceC = pad2 v ++ l := by
  simp only [pad2, List.cons_append]
  exact dropWhile_space_digit (isDigitC_digitChar (by omega)) _

theorem headStops_fracTz (g : TsG) :
    headStops (fracChars g.frac ++ tzChars g.tz) := by
  cases g.frac with
  | some f => exact headStops_of '.' (by decide)
  | none =>
    cases htz : g.tz with
    | none => simp [fracChars, tzChars, headStops_nil]
    | some t =>
      obtain ⟨neg, hhd, mmd⟩ := t
      cases neg with
      | true =>
        simp only [fracChars, tzChars, List.nil_append, if_pos rfl]
        exact headStops_of '-' (by decide)
      | false =>
        simp only [fracChars, tzChars, List.nil_append, Bool.false_eq_true,
          if_false]
        exact headStops_of '+' (by decide)

theorem strptime6_render (g : TsG) (hw : wfTs g) :
    strptime6 (renderTs g) =
      some (⟨g.y, g.mo, g.d, g.h, g.mi, g.s⟩, fracChars g.frac ++ tzChars g.tz) := by
  obtain ⟨hy, hmo1, hmo2, hd1, hd2, hh, hmi, hs, hfrac, htz⟩ := hw
  simp only [renderTs, strptime6,
    getNumber_pad4 g.y hy, litC_self,
    getNumber_pad2 g.mo (show g.mo < 100 by omega) hmo1 hmo2 (show g.mo / 10 * 10 ≤ 12 by omega),
    getNumber_pad2 g.d (show g.d < 100 by omega) hd1 hd2 (show g.d / 10 * 10 ≤ 31 by omega),
    dropWhile_space_sp, dropWhile_space_pad2 g.h (show g.h < 100 by omega),
    getNumber_pad2 g.h (show g.h < 100 by omega) (Nat.zero_le _) hh (show g.h / 10 * 10 ≤ 23 by omega),
    getNumber_pad2 g.mi (show g.mi < 100 by omega) (Nat.zero_le _) hmi (show g.mi / 10 * 10 ≤ 59 by omega),
    getNumber_pad2 g.s (show g.s < 100 by omega) (Nat.zero_le _) (show g.s ≤ 61 by omega) (show g.s / 10 * 10 ≤ 61 by omega)]

theorem scanPre6_render (g : TsG) (hw : wfTs g) :
    scanPre6 (renderTs g) = some (fracChars g.frac ++ tzChars g.tz) := by
  obtain ⟨hy, hmo1, hmo2, hd1, hd2, hh, hmi, hs, hfrac, htz⟩ := hw
  have hstz : headStops (fracChars g.frac ++ tzChars g.tz) := headStops_fracTz g
  simp only [renderTs, scanPre6,
    scanfNum_run (pad4_ne_nil g.y) (digitsOk_pad4 hy) (headStops_of '-' (by decide)),
    litC_self,
    scanfNum_run (pad2_ne_nil g.mo) (digitsOk_pad2 (show g.mo < 100 by omega)) (headStops_of '-' (by decide)),
    scanfNum_run (pad2_ne_nil g.d) (digitsOk_pad2 (show g.d < 100 by omega)) (headStops_of ' ' (by decide)),
    dropWhile_space_sp, dropWhile_space_pad2 g.h (show g.h < 100 by omega),
    scanfNum_run (pad2_ne_nil g.h) (digitsOk_pad2 (show g.h < 100 by omega)) (headStops_of ':' (by decide)),
    scanfNum_run (pad2_ne_nil g.mi) (digitsOk_pad2 (show g.mi < 100 by omega)) (headStops_of ':' (by decide)),
    scanfNum_run (pad2_ne_nil g.s) (digitsOk_pad2 (show g.s < 100 by omega)) hstz]

theorem headStops_tzChars (t : Option TzG) : headStops (tzChars t) := by
  cases t with
  | none => exact headStops_nil
  | some t =>
    obtain ⟨neg, hhd, mmd⟩ := t
    cases neg with
    | true =>
      simp only [tzChars, if_pos rfl]
      exact headStops_of '-' (by decide)
    | false =>
      simp only [tzChars, Bool.false_eq_true, if_false]
      exact headStops_of '+' (by decide)

theorem scanSet2_run {hh rest : List Char} (hlen : hh.length = 1 ∨ hh.length = 2)
    (hd : digitsOk hh) (hrest : headStops rest) :
    scanSet2 (hh ++ rest) = some (hh, rest) := by
  match hh, hlen with
  | [a], _ =>
    have ha : isDigitC a = true := hd a (by simp)
    cases rest with
    | nil => simp [scanSet2, ha]
    | cons c l =>
      have hc : isDigitC c = false := hrest
      simp [scanSet2, ha, hc]
  | [a, b], _ =>
    have ha : isDigitC a = true := hd a (by simp)
    have hb : isDigitC b = true := hd b (by simp)
    simp [scanSet2, ha, hb]

theorem scanFrac_render (g : TsG) (hw : wfTs g) :
    scanFrac (renderTs g) = (g.frac).getD [] := by
  have hpre := scanPre6_render g hw
  unfold scanFrac
  rw [hpre]
  cases hf : g.frac with
  | none =>
    simp only [fracChars, List.nil_append, Option.getD_none]
    cases g.tz with
    | none => rfl
    | some t =>
      obtain ⟨neg, hhd, mmd⟩ := t
      cases neg <;> simp [tzChars, litC]
  | some f =>
    have hfOk : f ≠ [] ∧ digitsOk f := by
      have h9 := hw.2.2.2.2.2.2.2.2.1
      rw [hf] at h9
      exact h9
    simp only [fracChars, List.cons_append, litC_self, Option.getD_some]
    exact takeWhile_digits hfOk.2 (headStops_tzChars g.tz)

theorem headStops_mmPart (mmd : Option (List Char)) : headStops (mmPartChars mmd) := by
  cases mmd with
  | none => exact headStops_nil
  | some m => exact headStops_of ':' (by decide)

theorem scanTzAfterSign_run (sgnc : Char) (hhd : List Char) (mmd : Option (List Char))
    (hlen : hhd.length = 1 ∨ hhd.length = 2) (hdig : digitsOk hhd)
    (hmm : tzDigitsOk mmd) (sgn : Char) :
    scanTzAfterSign sgn (sgnc :: (hhd ++ mmPartChars mmd)) =
      (if sgn = sgnc then (hhd, mmd.getD []) else ([], [])) := by
  by_cases hsgn : sgn = sgnc
  · subst hsgn
    unfold scanTzAfterSign
    rw [litC_self]
    dsimp only
    rw [scanSet2_run hlen hdig (headStops_mmPart mmd)]
    dsimp only
    cases mmd with
    | none => simp [mmPartChars, litC]
    | some m =>
      obtain ⟨hmlen, hmdig⟩ := hmm
      simp only [mmPartChars, litC_self]
      rw [show (m : List Char) = m ++ [] by simp] at hmlen hmdig ⊢
      rw [scanSet2_run (by simpa using hmlen) (by simpa using hmdig) headStops_nil]
      simp
  · have hsgn2 : ¬ (sgnc = sgn) := fun h => hsgn h.symm
    unfold scanTzAfterSign
    simp [litC, hsgn2, hsgn]

theorem scanTzSign_render (g : TsG) (hw : wfTs g) (sgn : Char) :
    scanTzSign sgn (renderTs g) =
      (match g.frac, g.tz with
       | some _, some t =>
         if sgn = (if t.neg then '-' else '+') then (t.hh, (t.mm).getD []) else ([], [])
       | _, _ => ([], [])) := by
  have hpre := scanPre6_render g hw
  unfold scanTzSign
  rw [hpre]
  cases hf : g.frac with
  | none =>
    simp only [fracChars, List.nil_append]
    cases g.tz with
    | none => rfl
    | some t =>
      obtain ⟨neg, hhd, mmd⟩ := t
      cases neg <;> simp [tzChars, litC]
  | some f =>
    have hfOk : f ≠ [] ∧ digitsOk f := by
      have h9 := hw.2.2.2.2.2.2.2.2.1
      rw [hf] at h9
      exact h9
    simp only [fracChars, List.cons_append, litC_self]
    rw [scanfNum_run hfOk.1 hfOk.2 (headStops_tzChars g.tz)]
    cases htz : g.tz with
    | none => simp [tzChars, scanTzAfterSign, litC]
    | some t =>
      obtain ⟨neg, hhd, mmd⟩ := t
      have htOk := hw.2.2.2.2.2.2.2.2.2
      rw [htz] at htOk
      obtain ⟨hl, hmm⟩ := htOk
      have hlen : hhd.length = 1 ∨ hhd.length = 2 := hl.1
      have hdig : digitsOk hhd := hl.2
      cases neg with
      | true =>
        have e : tzChars (some ⟨true, hhd, mmd⟩) = '-' :: (hhd ++ mmPartChars mmd) := by
          simp [tzChars]
        rw [e]
        dsimp only
        rw [scanTzAfterSign_run '-' hhd mmd hlen hdig hmm sgn]
        simp
      | false =>
        have e : tzChars (some ⟨false, hhd, mmd⟩) = '+' :: (hhd ++ mmPartChars mmd) := by
          simp [tzChars]
        rw [e]
        dsimp only
        rw [scanTzAfterSign_run '+' hhd mmd hlen hdig hmm sgn]
        simp

/-- Central lemma for the formatDate claims: on every wellformed grammar
input, `formatDate` succeeds and produces exactly the canonical output. -/
theorem formatDate_renderTs (g : TsG) (hw : wfTs g) :
    formatDate (renderTs g) = some (canonOut g) := by
  unfold formatDate
  rw [strptime6_render g hw]
  dsimp only
  rw [scanFrac_render g hw, scanTzSign_render g hw '-', scanTzSign_render g hw '+']
  cases hf : g.frac with
  | none =>
    cases htz : g.tz with
    | none => simp [canonOut, canonTz, hf, htz]
    | some t => simp [canonOut, canonTz, hf, htz]
  | some f =>
    cases htz : g.tz with
    | none => simp [canonOut, canonTz, hf, htz]
    | some t =>
      obtain ⟨neg, hhd, mmd⟩ := t
      have htOk := hw.2.2.2.2.2.2.2.2.2
      rw [htz] at htOk
      have hlen2 : hhd.length = 1 ∨ hhd.length = 2 := htOk.1.1
      have hne : hhd ≠ [] := by
        intro hnil
        rw [hnil] at hlen2
        simp at hlen2
      cases neg with
      | true => simp [canonOut, canonTz, hf, htz, hne]
      | false => simp [canonOut, canonTz, hf, htz, hne]

/-! ### formatDate is a fixed point on its canonical outputs -/

theorem truncPad6_length (l : List Char) : (truncPad6 l).length = 6 := by
  simp only [truncPad6, List.length_append, List.length_take, List.length_replicate]
  omega

theorem digitsOk_truncPad6 {l : List Char} (hl : digitsOk l) :
    digitsOk (truncPad6 l) := by
  intro c hc
  simp only [truncPad6, List.mem_append] at hc
  rcases hc with hc | hc
  · exact hl c (List.mem_of_mem_take hc)
  · rw [List.eq_of_mem_replicate hc]
    decide

theorem truncPad6_of_len6 {l : List Char} (h : l.length = 6) : truncPad6 l = l := by
  have h6 : l.length ≤ 6 := by omega
  simp [truncPad6, List.take_of_length_le h6, h]

theorem tzSuffix_len2 (c : Char) {H M : List Char} (hH : H.length = 2)
    (hM : M.length = 2) : tzSuffix c H M = c :: (H ++ (':' :: M)) := by
  have hMne : M ≠ [] := by
    intro e
    rw [e] at hM
    simp at hM
  simp [tzSuffix, hH, hM, hMne]

theorem canonIn_flat (tm : Tm6) (F : List Char) (sgnc : Char) (H M : List Char) :
    canonIn tm F sgnc H M =
      yearChars tm.y ++ ('-' :: (pad2 tm.mo ++ ('-' :: (pad2 tm.d ++
        (' ' :: (pad2 tm.h ++ (':' :: (pad2 tm.mi ++ (':' :: (pad2 tm.s ++
          ('.' :: (F ++ (sgnc :: (H ++ mmPartChars (some M))))))))))))))) := by
  simp [canonIn, strftime6, List.append_assoc, List.cons_append]

theorem strptime6_canonIn (tm : Tm6) (F : List Char) (sgnc : Char) (H M : List Char)
    (hy : tm.y ≤ 9999) (hmo1 : 1 ≤ tm.mo) (hmo2 : tm.mo ≤ 12) (hd1 : 1 ≤ tm.d)
    (hd2 : tm.d ≤ 31) (hh : tm.h ≤ 23) (hmi : tm.mi ≤ 59) (hs : tm.s ≤ 61) :
    strptime6 (canonIn tm F sgnc H M) =
      some (tm, '.' :: (F ++ (sgnc :: (H ++ mmPartChars (some M))))) := by
  obtain ⟨y, mo, d, h, mi, s⟩ := tm
  rw [canonIn_flat]
  simp only at hy hmo1 hmo2 hd1 hd2 hh hmi hs
  simp only [strptime6,
    getNumber_year y hy (headStops_of '-' (by decide)), litC_self,
    getNumber_pad2 mo (show mo < 100 by omega) hmo1 hmo2 (show mo / 10 * 10 ≤ 12 by omega),
    getNumber_pad2 d (show d < 100 by omega) hd1 hd2 (show d / 10 * 10 ≤ 31 by omega),
    dropWhile_space_sp, dropWhile_space_pad2 h (show h < 100 by omega),
    getNumber_pad2 h (show h < 100 by omega) (Nat.zero_le _) hh (show h / 10 * 10 ≤ 23 by omega),
    getNumber_pad2 mi (show mi < 100 by omega) (Nat.zero_le _) hmi (show mi / 10 * 10 ≤ 59 by omega),
    getNumber_pad2 s (show s < 100 by omega) (Nat.zero_le _) hs (show s / 10 * 10 ≤ 61 by omega)]

theorem scanPre6_canonIn (tm : Tm6) (F : List Char) (sgnc : Char) (H M : List Char)
    (hy : tm.y ≤ 9999) (hmo : tm.mo < 100) (hd : tm.d < 100) (hh : tm.h < 100)
    (hmi : tm.mi < 100) (hs : tm.s < 100) :
    scanPre6 (canonIn tm F sgnc H M) =
      some ('.' :: (F ++ (sgnc :: (H ++ mmPartChars (some M))))) := by
  obtain ⟨y, mo, d, h, mi, s⟩ := tm
  rw [canonIn_flat]
  simp only at hy hmo hd hh hmi hs
  simp only [scanPre6,
    scanfNum_run yearChars_ne_nil (digitsOk_yearChars hy) (headStops_of '-' (by decide)),
    litC_self,
    scanfNum_run (pad2_ne_nil mo) (digitsOk_pad2 hmo) (headStops_of '-' (by decide)),
    scanfNum_run (pad2_ne_nil d) (digitsOk_pad2 hd) (headStops_of ' ' (by decide)),
    dropWhile_space_sp, dropWhile_space_pad2 h hh,
    scanfNum_run (pad2_ne_nil h) (digitsOk_pad2 hh) (headStops_of ':' (by decide)),
    scanfNum_run (pad2_ne_nil mi) (digitsOk_pad2 hmi) (headStops_of ':' (by decide)),
    scanfNum_run (pad2_ne_nil s) (digitsOk_pad2 hs) (headStops_of '.' (by decide))]

theorem sign_not_digit {sgnc : Char} (hsgn : sgnc = '+' ∨ sgnc = '-') :
    isDigitC sgnc = false := by
  rcases hsgn with rfl | rfl <;> decide

theorem scanFrac_canonIn (tm : Tm6) (F : List Char) (sgnc : Char) (H M : List Char)
    (hy : tm.y ≤ 9999) (hmo : tm.mo < 100) (hd : tm.d < 100) (hh : tm.h < 100)
    (hmi : tm.mi < 100) (hs : tm.s < 100) (hFd : digitsOk F)
    (hsgn : sgnc = '+' ∨ sgnc = '-') :
    scanFrac (canonIn tm F sgnc H M) = F := by
  unfold scanFrac
  rw [scanPre6_canonIn tm F sgnc H M hy hmo hd hh hmi hs]
  simp only [litC_self]
  exact takeWhile_digits hFd (headStops_of sgnc (sign_not_digit hsgn))

theorem scanTzSign_canonIn (tm : Tm6) (F : List Char) (sgnc : Char) (H M : List Char)
    (hy : tm.y ≤ 9999) (hmo : tm.mo < 100) (hd : tm.d < 100) (hh : tm.h < 100)
    (hmi : tm.mi < 100) (hs : tm.s < 100) (hFne : F ≠ []) (hFd : digitsOk F)
    (hsgn : sgnc = '+' ∨ sgnc = '-') (hH2 : H.length = 2) (hHd : digitsOk H)
    (hM2 : M.length = 2) (hMd : digitsOk M) (sgn : Char) :
    scanTzSign sgn (canonIn tm F sgnc H M) =
      (if sgn = sgnc then (H, M) else ([], [])) := by
  unfold scanTzSign
  rw [scanPre6_canonIn tm F sgnc H M hy hmo hd hh hmi hs]
  simp only [litC_self]
  rw [scanfNum_run hFne hFd (headStops_of sgnc (sign_not_digit hsgn))]
  have := scanTzAfterSign_run sgnc H (some M) (Or.inr hH2) hHd ⟨Or.inr hM2, hMd⟩ sgn
  simpa using this

theorem formatDate_canonIn (tm : Tm6) (F : List Char) (sgnc : Char) (H M : List Char)
    (hy : tm.y ≤ 9999) (hmo1 : 1 ≤ tm.mo) (hmo2 : tm.mo ≤ 12) (hd1 : 1 ≤ tm.d)
    (hd2 : tm.d ≤ 31) (hh : tm.h ≤ 23) (hmi : tm.mi ≤ 59) (hs : tm.s ≤ 61)
    (hF6 : F.length = 6) (hFd : digitsOk F) (hsgn : sgnc = '+' ∨ sgnc = '-')
    (hH2 : H.length = 2) (hHd : digitsOk H) (hM2 : M.length = 2) (hMd : digitsOk M) :
    formatDate (canonIn tm F sgnc H M) = some (canonIn tm F sgnc H M) := by
  have hmo : tm.mo < 100 := by omega
  have hd : tm.d < 100 := by omega
  have hhx : tm.h < 100 := by omega
  have hmix : tm.mi < 100 := by omega
  have hsx : tm.s < 100 := by omega
  have hFne : F ≠ [] := by
    intro e
    rw [e] at hF6
    simp at hF6
  have hHne : H ≠ [] := by
    intro e
    rw [e] at hH2
    simp at hH2
  unfold formatDate
  rw [strptime6_canonIn tm F sgnc H M hy hmo1 hmo2 hd1 hd2 hh hmi hs]
  dsimp only
  rw [scanFrac_canonIn tm F sgnc H M hy hmo hd hhx hmix hsx hFd hsgn,
    scanTzSign_canonIn tm F sgnc H M hy hmo hd hhx hmix hsx hFne hFd hsgn hH2 hHd hM2 hMd '-',
    scanTzSign_canonIn tm F sgnc H M hy hmo hd hhx hmix hsx hFne hFd hsgn hH2 hHd hM2 hMd '+',
    truncPad6_of_len6 hF6]
  rcases hsgn with rfl | rfl
  · simp [canonIn, tzSuffix_len2 '+' hH2 hM2, hHne, mmPartChars]
  · simp [canonIn, tzSuffix_len2 '-' hH2 hM2, hHne, mmPartChars]

theorem tzSuffix_shape (sgnc : Char) (hh mmD : List Char)
    (hlen : hh.length = 1 ∨ hh.length = 2) (hdig : digitsOk hh)
    (hmm : mmD = [] ∨ ((mmD.length = 1 ∨ mmD.length = 2) ∧ digitsOk mmD)) :
    ∃ H M, tzSuffix sgnc hh mmD = sgnc :: (H ++ (':' :: M)) ∧
      H.length = 2 ∧ digitsOk H ∧ M.length = 2 ∧ digitsOk M := by
  refine ⟨(if hh.length = 1 then ['0'] else []) ++ hh,
    if mmD = [] then ['0', '0'] else mmD ++ (if mmD.length = 1 then ['0'] else []),
    ?_, ?_, ?_, ?_, ?_⟩
  · simp [tzSuffix, List.append_assoc]
  · rcases hlen with h1 | h1 <;> simp [h1]
  · intro c hc
    simp only [List.mem_append, List.mem_ite_nil_right, List.mem_singleton] at hc
    rcases hc with ⟨_, rfl⟩ | hc
    · decide
    · exact hdig c hc
  · rcases hmm with rfl | ⟨h1 | h1, _⟩
    · simp
    · have : mmD ≠ [] := by
        intro e
        rw [e] at h1
        simp at h1
      simp [this, h1]
    · have : mmD ≠ [] := by
        intro e
        rw [e] at h1
        simp at h1
      simp [this, h1]
  · intro c hc
    rcases hmm with rfl | ⟨h1, hmd⟩
    · have hc0 : c = '0' ∨ c = '0' := by simpa using hc
      rcases hc0 with rfl | rfl <;> decide
    · have hne : mmD ≠ [] := by
        intro e
        rw [e] at h1
        rcases h1 with h1 | h1 <;> simp at h1
      simp only [if_neg hne, List.mem_append, List.mem_ite_nil_right,
        List.mem_singleton] at hc
      rcases hc with hc | ⟨_, rfl⟩
      · exact hmd c hc
      · decide

theorem canonOut_shape (g : TsG) (hw : wfTs g) :
    ∃ F sgnc H M,
      canonOut g = canonIn ⟨g.y, g.mo, g.d, g.h, g.mi, g.s⟩ F sgnc H M ∧
      F.length = 6 ∧ digitsOk F ∧ (sgnc = '+' ∨ sgnc = '-') ∧
      H.length = 2 ∧ digitsOk H ∧ M.length = 2 ∧ digitsOk M := by
  have hFd : digitsOk (truncPad6 ((g.frac).getD [])) := by
    apply digitsOk_truncPad6
    cases hf : g.frac with
    | none => intro c hc; cases hc
    | some f =>
      have h9 := hw.2.2.2.2.2.2.2.2.1
      rw [hf] at h9
      simpa using h9.2
  have hF6 := truncPad6_length ((g.frac).getD [])
  have hshape : ∃ sgnc H M, canonTz g = sgnc :: (H ++ (':' :: M)) ∧
      (sgnc = '+' ∨ sgnc = '-') ∧
      H.length = 2 ∧ digitsOk H ∧ M.length = 2 ∧ digitsOk M := by
    cases hf : g.frac with
    | none =>
      refine ⟨'+', ['0', '0'], ['0', '0'], ?_, Or.inl rfl, by decide, by decide,
        by decide, by decide⟩
      simp [canonTz, hf]
    | some f =>
      cases htz : g.tz with
      | none =>
        refine ⟨'+', ['0', '0'], ['0', '0'], ?_, Or.inl rfl, by decide, by decide,
          by decide, by decide⟩
        simp [canonTz, hf, htz]
      | some t =>
        obtain ⟨neg, hhd, mmd⟩ := t
        have htOk := hw.2.2.2.2.2.2.2.2.2
        rw [htz] at htOk
        have hlen : hhd.length = 1 ∨ hhd.length = 2 := htOk.1.1
        have hdig : digitsOk hhd := htOk.1.2
        have hmm : (mmd.getD []) = [] ∨
            (((mmd.getD []).length = 1 ∨ (mmd.getD []).length = 2) ∧
              digitsOk (mmd.getD [])) := by
          cases mmd with
          | none => exact Or.inl rfl
          | some m =>
            right
            have h2 := htOk.2
            exact ⟨h2.1, h2.2⟩
        obtain ⟨H, M, heq, hH2, hHd, hM2, hMd⟩ :=
          tzSuffix_shape (if neg then '-' else '+') hhd (mmd.getD []) hlen hdig hmm
        refine ⟨if neg then '-' else '+', H, M, ?_, ?_, hH2, hHd, hM2, hMd⟩
        · rw [show canonTz g = tzSuffix (if neg then '-' else '+') hhd (mmd.getD []) by
            simp [canonTz, hf, htz]]
          exact heq
        · cases neg <;> simp
  obtain ⟨sgnc, H, M, heq, hsgn, hH2, hHd, hM2, hMd⟩ := hshape
  refine ⟨truncPad6 ((g.frac).getD []), sgnc, H, M, ?_, hF6, hFd, hsgn, hH2, hHd, hM2, hMd⟩
  simp [canonOut, canonIn, heq, mmPartChars]

/-! ### Claims C1 and C8 -/

/-- C1, counterexample to the claim as stated.  The claim asserts (i) that
an input carrying a timezone but no fractional seconds keeps its timezone
(the code instead emits `+00:00`, because both timezone sscanf patterns
demand `.%*d` before the sign), (ii) that exactly the grammar strings are
accepted (strptime is lenient: one-digit fields and trailing text are
accepted), and (iii) the canonical `YYYY`-shaped output (strftime prints
the year unpadded, so year 0099 renders as `99`). -/
theorem claim_C1_counterexample :
    formatDate "2019-03-04 10:03:04+01:00".toList =
        some "2019-03-04 10:03:04.000000+00:00".toList ∧
    formatDate "2019-03-04 10:03:04+01:00".toList ≠
        some "2019-03-04 10:03:04.000000+01:00".toList ∧
    formatDate "2019-3-4 1:2:3".toList =
        some "2019-03-04 01:02:03.000000+00:00".toList ∧
    formatDate "0099-01-02 03:04:05".toList =
        some "99-01-02 03:04:05.000000+00:00".toList := by
  refine ⟨by decide, by decide, by decide, by decide⟩

/-- C1 (amended): for every wellformed grammar input
`"YYYY-MM-DD HH:MM:SS[.fraction][±HH[:MM]]"` (rendered by `renderTs`),
`formatDate` returns true and writes the canonical output `canonOut`: the
strftime fields (year unpadded), the fraction zero-padded to exactly six
digits (truncated when longer), and the timezone suffix — taken from the
input only when a fractional part is present (hour left-padded, `+1`
becoming `+01:00`, one-digit minutes right-padded, `+01:3` becoming
`+01:30`), and `+00:00` otherwise, in particular whenever the input
carries a timezone but no fractional seconds. -/
theorem claim_C1_formatDate_grammar (g : TsG) (hw : wfTs g) :
    formatDate (renderTs g) = some (canonOut g) :=
  formatDate_renderTs g hw

/-- C1 witness: the amended theorem applied at the grammar input
`2019-03-04 10:03:04.5+01:3`, whose canonical output is
`2019-03-04 10:03:04.500000+01:30`. -/
theorem claim_C1_formatDate_grammar_witness :
    wfTs ⟨2019, 3, 4, 10, 3, 4, some ['5'], some ⟨false, ['0', '1'], some ['3']⟩⟩ ∧
    renderTs ⟨2019, 3, 4, 10, 3, 4, some ['5'], some ⟨false, ['0', '1'], some ['3']⟩⟩ =
      "2019-03-04 10:03:04.5+01:3".toList ∧
    canonOut ⟨2019, 3, 4, 10, 3, 4, some ['5'], some ⟨false, ['0', '1'], some ['3']⟩⟩ =
      "2019-03-04 10:03:04.500000+01:30".toList ∧
    formatDate (renderTs ⟨2019, 3, 4, 10, 3, 4, some ['5'], some ⟨false, ['0', '1'], some ['3']⟩⟩) =
      some (canonOut ⟨2019, 3, 4, 10, 3, 4, some ['5'], some ⟨false, ['0', '1'], some ['3']⟩⟩) :=
  ⟨by decide, by decide, by decide,
    claim_C1_formatDate_grammar ⟨2019, 3, 4, 10, 3, 4, some ['5'],
      some ⟨false, ['0', '1'], some ['3']⟩⟩ (by decide)⟩

/-- C8: for every timestamp string of the accepted grammar, the output of
`formatDate` is a fixed point: running `formatDate` on it succeeds and
reproduces it unchanged. -/
theorem claim_C8_formatDate_fixed_point (g : TsG) (hw : wfTs g) :
    ∃ out, formatDate (renderTs g) = some out ∧ formatDate out = some out := by
  refine ⟨canonOut g, formatDate_renderTs g hw, ?_⟩
  obtain ⟨F, sgnc, H, M, heq, hF6, hFd, hsgn, hH2, hHd, hM2, hMd⟩ := canonOut_shape g hw
  rw [heq]
  exact formatDate_canonIn ⟨g.y, g.mo, g.d, g.h, g.mi, g.s⟩ F sgnc H M
    hw.1 hw.2.1 hw.2.2.1 hw.2.2.2.1 hw.2.2.2.2.1 hw.2.2.2.2.2.1
    hw.2.2.2.2.2.2.1 (show g.s ≤ 61 by have := hw.2.2.2.2.2.2.2.1; omega)
    hF6 hFd hsgn hH2 hHd hM2 hMd

/-- C8 witness: the fixed-point theorem applied at
`2019-03-04 10:03:04+01:00` (a grammar input with timezone and no
fraction). -/
theorem claim_C8_formatDate_fixed_point_witness :
    wfTs ⟨2019, 3, 4, 10, 3, 4, none, some ⟨false, ['0', '1'], some ['0', '0']⟩⟩ ∧
    ∃ out,
      formatDate (renderTs ⟨2019, 3, 4, 10, 3, 4, none,
        some ⟨false, ['0', '1'], some ['0', '0']⟩⟩) = some out ∧
      formatDate out = some out :=
  ⟨by decide,
    claim_C8_formatDate_fixed_point
      ⟨2019, 3, 4, 10, 3, 4, none, some ⟨false, ['0', '1'], some ['0', '0']⟩⟩ (by decide)⟩

/-! ### Claim C2 -/

theorem length_filter_partition {α : Type} (p : α → Bool) (l : List α) :
    (l.filter p).length + (l.filter fun a => ! p a).length = l.length := by
  induction l with
  | nil => rfl
  | cons a l ih => cases hpa : p a <;> simp [List.filter_cons, hpa] <;> omega

/-- C2, counterexample to the claim as stated.  At `age = 0` the code
replaces the age by `round(extract(epoch FROM now() - min(user_ts))/360)`
(part_002:1381-1404), so a row 720 seconds old survives
`purgeReadings(0, 0, 0)` although its `user_ts` is older than now minus
0 hours, which the claim forbids. -/
theorem claim_C2_counterexample :
    (purgeReadings 0 0 0 720000 [⟨1, 719280⟩]).1 = [⟨1, 719280⟩] ∧
    ((719280 : Int) < 720000 - 0 * 3600) := by
  refine ⟨by decide, by decide⟩

/-- C2 (amended): for every `age > 0` (the zero age is replaced by a
computed value), after `purgeReadings(age, flags, sent)`: with bit 0 of
`flags` clear no remaining row is older than now minus `age` hours; with
bit 0 set no such row with `id < sent` remains and every row with
`id ≥ sent` survives regardless of `user_ts`; the summary reports
`removed` = the number of deleted rows (also the returned value),
`unsentRetained` = the number of remaining rows with `id > sent`, and
`readings` = the total number of remaining rows. -/
theorem claim_C2_purge_semantics (age flags sent : Nat) (now : Int)
    (table : List RRow) (hage : 0 < age) :
    (flags % 2 = 0 → ∀ r ∈ (purgeReadings age flags sent now table).1,
        ¬ (r.userTs < now - (age : Int) * 3600)) ∧
    (flags % 2 = 1 →
      (∀ r ∈ (purgeReadings age flags sent now table).1,
          ¬ (r.userTs < now - (age : Int) * 3600 ∧ r.id < sent)) ∧
      (∀ r ∈ table, sent ≤ r.id → r ∈ (purgeReadings age flags sent now table).1)) ∧
    ((purgeReadings age flags sent now table).2.1).removed +
        (purgeReadings age flags sent now table).1.length = table.length ∧
    ((purgeReadings age flags sent now table).2.1).removed =
        (purgeReadings age flags sent now table).2.2 ∧
    ((purgeReadings age flags sent now table).2.1).unsentRetained =
        ((purgeReadings age flags sent now table).1.filter
          fun r => decide (sent < r.id)).length ∧
    ((purgeReadings age flags sent now table).2.1).readings =
        (purgeReadings age flags sent now table).1.length := by
  have hne : ¬ (age = 0) := by omega
  unfold purgeReadings
  simp only [hne, if_false]
  refine ⟨?_, ?_, ?_, by trivial, by trivial, by trivial⟩
  · intro hf r hr hlt
    rw [List.mem_filter] at hr
    have h2 := hr.2
    simp only [purgeDeletes, hf, Bool.not_eq_true', Bool.and_eq_false_iff,
      decide_eq_false_iff_not, decide_eq_true_eq] at h2
    rcases h2 with h2 | h2
    · exact h2 hlt
    · simp at h2
  · intro hf
    constructor
    · intro r hr ⟨hlt, hid⟩
      rw [List.mem_filter] at hr
      have h2 := hr.2
      simp only [purgeDeletes, hf, Bool.not_eq_true', Bool.and_eq_false_iff,
        decide_eq_false_iff_not] at h2
      rcases h2 with h2 | h2
      · exact h2 hlt
      · simp only [Bool.or_eq_false_iff, decide_eq_false_iff_not] at h2
        exact h2.2 hid
    · intro r hr hid
      rw [List.mem_filter]
      refine ⟨hr, ?_⟩
      simp only [purgeDeletes, hf, Bool.not_eq_true', Bool.and_eq_false_iff]
      right
      simp only [Bool.or_eq_false_iff, decide_eq_false_iff_not, decide_eq_true_eq]
      exact ⟨by omega, by omega⟩
  · exact length_filter_partition _ table

/-- C2 witness: the amended theorem at the purge scenario of five rows
three hours old with ids 10..14, `sent = 12` and `purgeReadings(2, 1, 12)`. -/
theorem claim_C2_purge_semantics_witness :
    0 < 2 ∧
    ((1 : Nat) % 2 = 0 → ∀ r ∈ (purgeReadings 2 1 12 0
        [⟨10, -10800⟩, ⟨11, -10800⟩, ⟨12, -10800⟩, ⟨13, -10800⟩, ⟨14, -10800⟩]).1,
        ¬ (r.userTs < 0 - ((2 : Nat) : Int) * 3600)) ∧
    ((1 : Nat) % 2 = 1 →
      (∀ r ∈ (purgeReadings 2 1 12 0
          [⟨10, -10800⟩, ⟨11, -10800⟩, ⟨12, -10800⟩, ⟨13, -10800⟩, ⟨14, -10800⟩]).1,
          ¬ (r.userTs < 0 - ((2 : Nat) : Int) * 3600 ∧ r.id < 12)) ∧
      (∀ r ∈ [(⟨10, -10800⟩ : RRow), ⟨11, -10800⟩, ⟨12, -10800⟩, ⟨13, -10800⟩, ⟨14, -10800⟩],
          12 ≤ r.id → r ∈ (purgeReadings 2 1 12 0
            [⟨10, -10800⟩, ⟨11, -10800⟩, ⟨12, -10800⟩, ⟨13, -10800⟩, ⟨14, -10800⟩]).1)) ∧
    ((purgeReadings 2 1 12 0
        [⟨10, -10800⟩, ⟨11, -10800⟩, ⟨12, -10800⟩, ⟨13, -10800⟩, ⟨14, -10800⟩]).2.1).removed +
      (purgeReadings 2 1 12 0
        [⟨10, -10800⟩, ⟨11, -10800⟩, ⟨12, -10800⟩, ⟨13, -10800⟩, ⟨14, -10800⟩]).1.length = 5 ∧
    ((purgeReadings 2 1 12 0
        [⟨10, -10800⟩, ⟨11, -10800⟩, ⟨12, -10800⟩, ⟨13, -10800⟩, ⟨14, -10800⟩]).2.1).removed =
      (purgeReadings 2 1 12 0
        [⟨10, -10800⟩, ⟨11, -10800⟩, ⟨12, -10800⟩, ⟨13, -10800⟩, ⟨14, -10800⟩]).2.2 ∧
    ((purgeReadings 2 1 12 0
        [⟨10, -10800⟩, ⟨11, -10800⟩, ⟨12, -10800⟩, ⟨13, -10800⟩, ⟨14, -10800⟩]).2.1).unsentRetained =
      ((purgeReadings 2 1 12 0
        [⟨10, -10800⟩, ⟨11, -10800⟩, ⟨12, -10800⟩, ⟨13, -10800⟩, ⟨14, -10800⟩]).1.filter
          fun r => decide (12 < r.id)).length ∧
    ((purgeReadings 2 1 12 0
        [⟨10, -10800⟩, ⟨11, -10800⟩, ⟨12, -10800⟩, ⟨13, -10800⟩, ⟨14, -10800⟩]).2.1).readings =
      (purgeReadings 2 1 12 0
        [⟨10, -10800⟩, ⟨11, -10800⟩, ⟨12, -10800⟩, ⟨13, -10800⟩, ⟨14, -10800⟩]).1.length :=
  ⟨by decide,
    (claim_C2_purge_semantics 2 1 12 0
      [⟨10, -10800⟩, ⟨11, -10800⟩, ⟨12, -10800⟩, ⟨13, -10800⟩, ⟨14, -10800⟩] (by decide)).1,
    (claim_C2_purge_semantics 2 1 12 0
      [⟨10, -10800⟩, ⟨11, -10800⟩, ⟨12, -10800⟩, ⟨13, -10800⟩, ⟨14, -10800⟩] (by decide)).2.1,
    (claim_C2_purge_semantics 2 1 12 0
      [⟨10, -10800⟩, ⟨11, -10800⟩, ⟨12, -10800⟩, ⟨13, -10800⟩, ⟨14, -10800⟩] (by decide)).2.2.1,
    (claim_C2_purge_semantics 2 1 12 0
      [⟨10, -10800⟩, ⟨11, -10800⟩, ⟨12, -10800⟩, ⟨13, -10800⟩, ⟨14, -10800⟩] (by decide)).2.2.2.1,
    (claim_C2_purge_semantics 2 1 12 0
      [⟨10, -10800⟩, ⟨11, -10800⟩, ⟨12, -10800⟩, ⟨13, -10800⟩, ⟨14, -10800⟩] (by decide)).2.2.2.2.1,
    (claim_C2_purge_semantics 2 1 12 0
      [⟨10, -10800⟩, ⟨11, -10800⟩, ⟨12, -10800⟩, ⟨13, -10800⟩, ⟨14, -10800⟩] (by decide)).2.2.2.2.2⟩

/-! ### OMF emitter lemmas -/

theorem contains_append_left (l e : List String) (a : String)
    (h : l.contains a = true) : (l ++ e).contains a = true :=
  List.elem_eq_true_of_mem (List.mem_append_left e (List.mem_of_elem_eq_true h))

theorem contains_append_singleton (l : List String) (a : String) :
    (l ++ [a]).contains a = true :=
  List.elem_eq_true_of_mem (List.mem_append_right l (List.mem_singleton.mpr rfl))

theorem lookupPairs_append_isSome (m e : List (String × String)) (l : String)
    (h : (lookupPairs m l).isSome = true) :
    (lookupPairs (m ++ e) l).isSome = true := by
  induction m with
  | nil => simp [lookupPairs] at h
  | cons p m ih =>
    obtain ⟨k, v⟩ := p
    by_cases hk : k = l
    · simp only [List.cons_append, lookupPairs, if_pos hk, Option.isSome_some]
    · simp only [lookupPairs, if_neg hk] at h
      simp only [List.cons_append, lookupPairs, if_neg hk]
      exact ih h

theorem processDatapoint_assetSent (an ut : String)
    (acc : String × Bool × OMFState) (dp : DatapointM) :
    ((processDatapoint an ut acc dp).2.2).assetSent = (acc.2.2).assetSent := by
  obtain ⟨o, d, s⟩ := acc
  unfold processDatapoint
  dsimp only
  split
  · rfl
  split
  · rfl
  cases hlp : lookupPairs s.containerSent (an ++ "_" ++ dp.name) <;>
    (dsimp only; repeat' split) <;> rfl

theorem processDatapoint_containerSent (an ut : String)
    (acc : String × Bool × OMFState) (dp : DatapointM) :
    ∃ e, ((processDatapoint an ut acc dp).2.2).containerSent =
      (acc.2.2).containerSent ++ e := by
  obtain ⟨o, d, s⟩ := acc
  unfold processDatapoint
  dsimp only
  split
  · exact ⟨[], by simp⟩
  split
  · exact ⟨[], by simp⟩
  cases hlp : lookupPairs s.containerSent (an ++ "_" ++ dp.name) <;>
    (dsimp only; repeat' split) <;>
    first
    | exact ⟨_, rfl⟩
    | exact ⟨[], by simp⟩

theorem processDatapoint_linkSent (an ut : String)
    (acc : String × Bool × OMFState) (dp : DatapointM) :
    ∃ e, ((processDatapoint an ut acc dp).2.2).linkSent =
      (acc.2.2).linkSent ++ e := by
  obtain ⟨o, d, s⟩ := acc
  unfold processDatapoint
  dsimp only
  split
  · exact ⟨[], by simp⟩
  split
  · exact ⟨[], by simp⟩
  cases hlp : lookupPairs s.containerSent (an ++ "_" ++ dp.name) <;>
    (dsimp only; repeat' split) <;>
    first
    | exact ⟨_, rfl⟩
    | exact ⟨[], by simp⟩

theorem foldl_pd_assetSent (an ut : String) (l : List DatapointM) :
    ∀ acc, ((l.foldl (processDatapoint an ut) acc).2.2).assetSent =
      (acc.2.2).assetSent := by
  induction l with
  | nil => intro acc; rfl
  | cons dp l ih =>
    intro acc
    rw [List.foldl_cons, ih, processDatapoint_assetSent]

theorem foldl_pd_containerSent (an ut : String) (l : List DatapointM) :
    ∀ acc, ∃ e, ((l.foldl (processDatapoint an ut) acc).2.2).containerSent =
      (acc.2.2).containerSent ++ e := by
  induction l with
  | nil => intro acc; exact ⟨[], by simp⟩
  | cons dp l ih =>
    intro acc
    obtain ⟨e1, he1⟩ := processDatapoint_containerSent an ut acc dp
    obtain ⟨e2, he2⟩ := ih (processDatapoint an ut acc dp)
    exact ⟨e1 ++ e2, by rw [List.foldl_cons, he2, he1, List.append_assoc]⟩

theorem foldl_pd_linkSent (an ut : String) (l : List DatapointM) :
    ∀ acc, ∃ e, ((l.foldl (processDatapoint an ut) acc).2.2).linkSent =
      (acc.2.2).linkSent ++ e := by
  induction l with
  | nil => intro acc; exact ⟨[], by simp⟩
  | cons dp l ih =>
    intro acc
    obtain ⟨e1, he1⟩ := processDatapoint_linkSent an ut acc dp
    obtain ⟨e2, he2⟩ := ih (processDatapoint an ut acc dp)
    exact ⟨e1 ++ e2, by rw [List.foldl_cons, he2, he1, List.append_assoc]⟩

theorem processReading_assetSent (st : OMFState) (r : ReadingM)
    (h : Option (List HintM)) :
    ((processReading st r h).2).assetSent =
      (if st.assetSent.contains (effectiveAssetName r.assetCode h) = true
       then st.assetSent
       else st.assetSent ++ [effectiveAssetName r.assetCode h]) := by
  unfold processReading
  dsimp only
  split
  · rw [foldl_pd_assetSent]
  · rw [foldl_pd_assetSent]

theorem processReading_containerSent (st : OMFState) (r : ReadingM)
    (h : Option (List HintM)) :
    ∃ e, ((processReading st r h).2).containerSent = st.containerSent ++ e := by
  unfold processReading
  dsimp only
  split
  · exact foldl_pd_containerSent _ _ _ _
  · exact foldl_pd_containerSent _ _ _ _

theorem processReading_linkSent (st : OMFState) (r : ReadingM)
    (h : Option (List HintM)) :
    ∃ e, ((processReading st r h).2).linkSent = st.linkSent ++ e := by
  unfold processReading
  dsimp only
  split
  · exact foldl_pd_linkSent _ _ _ _
  · exact foldl_pd_linkSent _ _ _ _

theorem processReading_assetSent_mono (st : OMFState) (r : ReadingM)
    (h : Option (List HintM)) (a : String)
    (hc : st.assetSent.contains a = true) :
    ((processReading st r h).2).assetSent.contains a = true := by
  rw [processReading_assetSent]
  split
  · exact hc
  · exact contains_append_left _ _ _ hc

theorem processReading_linkSent_mono (st : OMFState) (r : ReadingM)
    (h : Option (List HintM)) (l : String)
    (hc : st.linkSent.contains l = true) :
    ((processReading st r h).2).linkSent.contains l = true := by
  obtain ⟨e, he⟩ := processReading_linkSent st r h
  rw [he]
  exact contains_append_left _ _ _ hc

theorem processReading_containerSent_mono (st : OMFState) (r : ReadingM)
    (h : Option (List HintM)) (l : String)
    (hc : (lookupPairs st.containerSent l).isSome = true) :
    (lookupPairs ((processReading st r h).2).containerSent l).isSome = true := by
  obtain ⟨e, he⟩ := processReading_containerSent st r h
  rw [he]
  exact lookupPairs_append_isSome _ _ _ hc

theorem assetEmitCount_zero (a : String) (rest : List (ReadingM × Option (List HintM))) :
    ∀ st : OMFState, st.assetSent.contains a = true →
      assetEmitCount st rest a = 0 := by
  induction rest with
  | nil => intro st _; rfl
  | cons p rest ih =>
    intro st h
    obtain ⟨r, hh⟩ := p
    simp only [assetEmitCount]
    have h1 : emitsAsset st r hh a = false := by
      simp only [emitsAsset, h, Bool.not_true, Bool.and_false]
    rw [h1, ih _ (processReading_assetSent_mono st r hh a h)]
    simp

theorem assetEmitCount_le_one (a : String) (rest : List (ReadingM × Option (List HintM))) :
    ∀ st : OMFState, assetEmitCount st rest a ≤ 1 := by
  induction rest with
  | nil => intro st; exact Nat.zero_le 1
  | cons p rest ih =>
    intro st
    obtain ⟨r, hh⟩ := p
    simp only [assetEmitCount]
    cases he : emitsAsset st r hh a with
    | false => simpa using ih (processReading st r hh).2
    | true =>
      simp only [emitsAsset, Bool.and_eq_true, decide_eq_true_eq,
        Bool.not_eq_true'] at he
      have hs := processReading_assetSent st r hh
      rw [he.1, he.2, if_neg (by simp)] at hs
      have hc : ((processReading st r hh).2).assetSent.contains a = true := by
        rw [hs]; exact contains_append_singleton _ _
      rw [assetEmitCount_zero a rest _ hc]
      simp

theorem linkEmitCount_zero (l : String) (rest : List (ReadingM × Option (List HintM))) :
    ∀ st : OMFState, st.linkSent.contains l = true →
      linkEmitCount st rest l = 0 := by
  induction rest with
  | nil => intro st _; rfl
  | cons p rest ih =>
    intro st h
    obtain ⟨r, hh⟩ := p
    simp only [linkEmitCount]
    rw [h]
    simp only [Bool.not_true, Bool.false_and, if_neg (by simp : ¬ false = true)]
    rw [ih _ (processReading_linkSent_mono st r hh l h)]

theorem linkEmitCount_le_one (l : String) (rest : List (ReadingM × Option (List HintM))) :
    ∀ st : OMFState, linkEmitCount st rest l ≤ 1 := by
  induction rest with
  | nil => intro st; exact Nat.zero_le 1
  | cons p rest ih =>
    intro st
    obtain ⟨r, hh⟩ := p
    simp only [linkEmitCount]
    by_cases hi : (! st.linkSent.contains l &&
        ((processReading st r hh).2).linkSent.contains l) = true
    · rw [if_pos hi]
      simp only [Bool.and_eq_true] at hi
      rw [linkEmitCount_zero l rest _ hi.2]
    · rw [if_neg hi]
      simpa using ih (processReading st r hh).2

theorem containerEmitCount_zero (l : String) (rest : List (ReadingM × Option (List HintM))) :
    ∀ st : OMFState, (lookupPairs st.containerSent l).isSome = true →
      containerEmitCount st rest l = 0 := by
  induction rest with
  | nil => intro st _; rfl
  | cons p rest ih =>
    intro st h
    obtain ⟨r, hh⟩ := p
    simp only [containerEmitCount]
    have hn : (lookupPairs st.containerSent l).isNone = false := by
      cases hx : lookupPairs st.containerSent l
      · rw [hx] at h; simp at h
      · rfl
    rw [hn]
    simp only [Bool.false_and, if_neg (by simp : ¬ false = true)]
    rw [ih _ (processReading_containerSent_mono st r hh l h)]

theorem containerEmitCount_le_one (l : String) (rest : List (ReadingM × Option (List HintM))) :
    ∀ st : OMFState, containerEmitCount st rest l ≤ 1 := by
  induction rest with
  | nil => intro st; exact Nat.zero_le 1
  | cons p rest ih =>
    intro st
    obtain ⟨r, hh⟩ := p
    simp only [containerEmitCount]
    by_cases hi : ((lookupPairs st.containerSent l).isNone &&
        (lookupPairs ((processReading st r hh).2).containerSent l).isSome) = true
    · rw [if_pos hi]
      simp only [Bool.and_eq_true] at hi
      rw [containerEmitCount_zero l rest _ hi.2]
    · rw [if_neg hi]
      simpa using ih (processReading st r hh).2

theorem processDatapoint_skip (an ut : String) (acc : String × Bool × OMFState)
    (dp : DatapointM) (h : dp.name = OMF_HINT ∨ isTypeSupported dp.typ = false) :
    processDatapoint an ut acc dp = acc := by
  obtain ⟨o, d, s⟩ := acc
  unfold processDatapoint
  dsimp only
  by_cases h1 : dp.name = OMF_HINT
  · rw [if_pos h1]
  · rcases h with h | h
    · exact absurd h h1
    · rw [if_neg h1, if_pos (by rw [h]; rfl)]

theorem foldl_pd_skip (an ut : String) (l : List DatapointM)
    (h : ∀ dp ∈ l, dp.name = OMF_HINT ∨ isTypeSupported dp.typ = false) :
    ∀ acc, l.foldl (processDatapoint an ut) acc = acc := by
  induction l with
  | nil => intro acc; rfl
  | cons dp l ih =>
    intro acc
    rw [List.foldl_cons, processDatapoint_skip an ut acc dp (h dp (by simp)),
      ih (fun d hd => h d (by simp [hd]))]

/-- C9: `flushContainers` clears the pending container buffer before the
POST (linkdata.cpp:208-209), so the buffer is empty after every call; an
already empty buffer returns `true` with no HTTP request; otherwise the
buffer is wrapped in `[...]` and POSTed, and the result is `true` exactly
for a 2xx status, `false` for any other status, for `BadRequest` and for
any other exception — the failed definitions are not retained for
retry. -/
theorem claim_C9_flushContainers_clears_buffer (cs : List String)
    (o : HttpOutcome) :
    (flushContainers cs o).2.1 = [] ∧
    (cs = [] → flushContainers cs o = (true, [], none)) ∧
    (cs ≠ [] →
      (flushContainers cs o).2.2 =
        some ("[" ++ String.intercalate "," cs ++ "]") ∧
      (flushContainers cs o).1 =
        (match o with
         | .status code => decide (200 ≤ code) && decide (code ≤ 299)
         | .badRequest => false
         | .otherExc => false)) := by
  cases cs with
  | nil => cases o <;> exact ⟨rfl, fun _ => rfl, fun hne => absurd rfl hne⟩
  | cons c cs =>
    cases o <;>
      exact ⟨rfl, fun he => absurd he (by simp), fun _ => ⟨rfl, rfl⟩⟩

/-- C9 witness: a one-element buffer POSTed with status 204 and an empty
buffer under a `BadRequest` outcome. -/
theorem claim_C9_flushContainers_clears_buffer_witness :
    (flushContainers ["c"] (HttpOutcome.status 204)).2.1 = [] ∧
    (flushContainers ["c"] (HttpOutcome.status 204)).2.2 =
      some ("[" ++ String.intercalate "," ["c"] ++ "]") ∧
    (flushContainers ["c"] (HttpOutcome.status 204)).1 =
      (decide ((200 : Int) ≤ 204) && decide ((204 : Int) ≤ 299)) ∧
    flushContainers [] HttpOutcome.badRequest = (true, [], none) :=
  ⟨(claim_C9_flushContainers_clears_buffer ["c"] (HttpOutcome.status 204)).1,
   ((claim_C9_flushContainers_clears_buffer ["c"] (HttpOutcome.status 204)).2.2
      (by simp)).1,
   ((claim_C9_flushContainers_clears_buffer ["c"] (HttpOutcome.status 204)).2.2
      (by simp)).2,
   (claim_C9_flushContainers_clears_buffer [] HttpOutcome.badRequest).2.1 rfl⟩

/-- C10: on the first `processReading` call for an asset name not yet in
`m_assetSent`, the `FledgeAsset` record is emitted and the asset is
memoised even when every datapoint is skipped (the reserved `OMFHint`
name or an unsupported value type): the returned fragment is the
`FledgeAsset` record alone, the name enters `m_assetSent`, and no later
call sequence ever emits the `FledgeAsset` record for that asset
again. -/
theorem claim_C10_asset_memoised_when_all_skipped (st : OMFState)
    (r : ReadingM) (hints : Option (List HintM))
    (hnew : st.assetSent.contains (effectiveAssetName r.assetCode hints) = false)
    (hskip : ∀ dp ∈ r.datapoints,
      dp.name = OMF_HINT ∨ isTypeSupported dp.typ = false) :
    (processReading st r hints).1 =
      assetRecord (effectiveAssetName r.assetCode hints) ∧
    ((processReading st r hints).2).assetSent =
      st.assetSent ++ [effectiveAssetName r.assetCode hints] ∧
    (∀ rest, assetEmitCount (processReading st r hints).2 rest
        (effectiveAssetName r.assetCode hints) = 0) := by
  unfold processReading
  dsimp only
  simp only [hnew, Bool.false_eq_true, if_false]
  rw [foldl_pd_skip _ _ _ hskip]
  refine ⟨rfl, rfl, ?_⟩
  intro rest
  exact assetEmitCount_zero _ rest _ (contains_append_singleton _ _)

/-- C10 witness: a fresh emitter, a reading whose datapoints are the
reserved `OMFHint` name and an unsupported-type blob, and a repeat of
that reading as the later sequence. -/
theorem claim_C10_asset_memoised_when_all_skipped_witness :
    (omfEmpty.assetSent.contains (effectiveAssetName "a" none) = false) ∧
    (∀ dp ∈ [(⟨"OMFHint", DpType.tString, "\"x\""⟩ : DatapointM),
        ⟨"blob", DpType.tOther, "b"⟩],
      dp.name = OMF_HINT ∨ isTypeSupported dp.typ = false) ∧
    (processReading omfEmpty
        ⟨"a", "t", [⟨"OMFHint", DpType.tString, "\"x\""⟩,
          ⟨"blob", DpType.tOther, "b"⟩]⟩ none).1 =
      assetRecord (effectiveAssetName "a" none) ∧
    ((processReading omfEmpty
        ⟨"a", "t", [⟨"OMFHint", DpType.tString, "\"x\""⟩,
          ⟨"blob", DpType.tOther, "b"⟩]⟩ none).2).assetSent =
      [] ++ [effectiveAssetName "a" none] ∧
    assetEmitCount (processReading omfEmpty
        ⟨"a", "t", [⟨"OMFHint", DpType.tString, "\"x\""⟩,
          ⟨"blob", DpType.tOther, "b"⟩]⟩ none).2
      [(⟨"a", "t", [⟨"OMFHint", DpType.tString, "\"x\""⟩,
          ⟨"blob", DpType.tOther, "b"⟩]⟩, none)]
      (effectiveAssetName "a" none) = 0 :=
  ⟨by decide, by decide,
   (claim_C10_asset_memoised_when_all_skipped omfEmpty
      ⟨"a", "t", [⟨"OMFHint", DpType.tString, "\"x\""⟩,
        ⟨"blob", DpType.tOther, "b"⟩]⟩ none (by decide) (by decide)).1,
   (claim_C10_asset_memoised_when_all_skipped omfEmpty
      ⟨"a", "t", [⟨"OMFHint", DpType.tString, "\"x\""⟩,
        ⟨"blob", DpType.tOther, "b"⟩]⟩ none (by decide) (by decide)).2.1,
   (claim_C10_asset_memoised_when_all_skipped omfEmpty
      ⟨"a", "t", [⟨"OMFHint", DpType.tString, "\"x\""⟩,
        ⟨"blob", DpType.tOther, "b"⟩]⟩ none (by decide) (by decide)).2.2
      [(⟨"a", "t", [⟨"OMFHint", DpType.tString, "\"x\""⟩,
          ⟨"blob", DpType.tOther, "b"⟩]⟩, none)]⟩

set_option maxRecDepth 100000 in
/-- C3: across every sequence of `processReading` calls on one emitter
state, the `FledgeAsset` record for a given asset name, the
`sendContainer` invocation for a given link name and the `__Link` record
for a given link name each happen at most once; `sendContainer` maps
Float and Integer datapoints to a `typeid` of `Double` and String to
`String`; and in the concrete two-call scenario for asset `sensor` with
float datapoint `(temp, 21.5)` the first fragment carries the
`FledgeAsset`, `__Link` and value records, the second only the value
record, while `flushContainers` POSTs exactly one `Double` container for
`sensor_temp`. -/
theorem claim_C3_records_at_most_once (st : OMFState)
    (seq : List (ReadingM × Option (List HintM))) (a l l2 : String) :
    assetEmitCount st seq a ≤ 1 ∧
    containerEmitCount st seq l ≤ 1 ∧
    linkEmitCount st seq l2 ≤ 1 ∧
    (∀ cs link n v, sendContainer cs link ⟨n, DpType.tFloat, v⟩ =
        ("Double", cs ++ [containerObj link "Double" n]) ∧
      sendContainer cs link ⟨n, DpType.tInteger, v⟩ =
        ("Double", cs ++ [containerObj link "Double" n]) ∧
      sendContainer cs link ⟨n, DpType.tString, v⟩ =
        ("String", cs ++ [containerObj link "String" n])) ∧
    (processList omfEmpty
        [(⟨"sensor", "2023-01-01 00:00:00.000000",
            [⟨"temp", DpType.tFloat, "21.5"⟩]⟩, none),
         (⟨"sensor", "2023-01-01 00:00:00.000000",
            [⟨"temp", DpType.tFloat, "21.5"⟩]⟩, none)]).1 =
      [assetRecord "sensor" ++ "," ++ linkRecord "sensor" "sensor_temp" ++
        valueRecord "sensor_temp" "Double" "21.5" "2023-01-01 00:00:00.000000",
       valueRecord "sensor_temp" "Double" "21.5" "2023-01-01 00:00:00.000000"] ∧
    flushContainers (processList omfEmpty
        [(⟨"sensor", "2023-01-01 00:00:00.000000",
            [⟨"temp", DpType.tFloat, "21.5"⟩]⟩, none),
         (⟨"sensor", "2023-01-01 00:00:00.000000",
            [⟨"temp", DpType.tFloat, "21.5"⟩]⟩, none)]).2.containers
        (HttpOutcome.status 200) =
      (true, [], some ("[" ++ containerObj "sensor_temp" "Double" "temp" ++ "]")) :=
  ⟨assetEmitCount_le_one a seq st,
   containerEmitCount_le_one l seq st,
   linkEmitCount_le_one l2 seq st,
   fun cs link n v => ⟨rfl, rfl, rfl⟩,
   by decide,
   by decide⟩

/-! ### Claims C5 and C7 -/

/-- C5: an `in` or `not in` condition whose value is an empty array or
not an array makes `deleteRows` raise
`The "value" of a "<cond>" condition must be an array and must not be
empty.` on operation `where clause` (so it returns −1 with no SQL
executed), while a non-empty array of integers, doubles and strings
compiles to an `IN ( ... )` list in the generated `DELETE`. -/
theorem claim_C5_empty_in_condition (fuel : Nat) (table col cond : String)
    (v : JVal) (items : List String) (e : JVal) (es : List JVal)
    (hcond : cond = "in" ∨ cond = "not in")
    (hv : ∀ x xs, v ≠ JVal.jarr (x :: xs))
    (hitems : inListItems (e :: es) = some items) :
    deleteRows (fuel + 1) table (some (.jobj [("where",
        .jobj [("column", .jstr col), ("condition", .jstr cond),
          ("value", v)])])) =
      .error ("where clause",
        "The \"value\" of a \"" ++ cond ++
          "\" condition must be an array and must not be empty.") ∧
    deleteRows (fuel + 1) table (some (.jobj [("where",
        .jobj [("column", .jstr col), ("condition", .jstr cond),
          ("value", .jarr (e :: es))])])) =
      .ok ("DELETE FROM foglamp." ++ table ++ " WHERE " ++
        ((if strtodRest col.toList ≠ [] then "\"" ++ col ++ "\"" else col) ++
          " " ++ cond ++ " ( " ++ String.intercalate ", " items ++ " )") ++
        ";") := by
  constructor
  · rcases hcond with rfl | rfl <;>
      (cases v with
       | jarr l =>
         cases l with
         | nil => rfl
         | cons x xs => exact absurd rfl (hv x xs)
       | jnull => rfl
       | jbool b => rfl
       | jint i => rfl
       | jdbl r => rfl
       | jstr s => rfl
       | jobj fs => rfl)
  · rcases hcond with rfl | rfl <;>
      (cases hitm : inListItems (e :: es) with
       | none => rw [hitm] at hitems; cases hitems
       | some its =>
         rw [hitm] at hitems
         injection hitems with hi
         subst hi
         simp [deleteRows, jsonWhereClause, JVal.hasMember, JVal.member,
           JVal.memberD, lookupField, JVal.isObject, JVal.getStr, hitm,
           String.append_assoc])

/-- C5 witness: the verbatim bad-clause scenario
`delete("t", \x7b"where":\x7b"column":"c","condition":"in","value":[]\x7d\x7d)`
and the compiled list for `[1, "a"]`. -/
theorem claim_C5_empty_in_condition_witness :
    ("in" = "in" ∨ ("in" : String) = "not in") ∧
    inListItems [JVal.jint 1, JVal.jstr "a"] = some ["1", "\x27a\x27"] ∧
    deleteRows 1 "t" (some (.jobj [("where",
        .jobj [("column", .jstr "c"), ("condition", .jstr "in"),
          ("value", .jarr [])])])) =
      .error ("where clause",
        "The \"value\" of a \"" ++ "in" ++
          "\" condition must be an array and must not be empty.") ∧
    deleteRows 1 "t" (some (.jobj [("where",
        .jobj [("column", .jstr "c"), ("condition", .jstr "in"),
          ("value", .jarr [JVal.jint 1, JVal.jstr "a"])])])) =
      .ok ("DELETE FROM foglamp." ++ "t" ++ " WHERE " ++
        ((if strtodRest "c".toList ≠ [] then "\"" ++ "c" ++ "\"" else "c") ++
          " " ++ "in" ++ " ( " ++
          String.intercalate ", " ["1", "\x27a\x27"] ++ " )") ++ ";") :=
  ⟨Or.inl rfl, by decide,
   (claim_C5_empty_in_condition 0 "t" "c" "in" (.jarr []) ["1", "\x27a\x27"]
      (.jint 1) [.jstr "a"] (Or.inl rfl)
      (fun x xs h => by simp at h) (by decide)).1,
   (claim_C5_empty_in_condition 0 "t" "c" "in" (.jarr []) ["1", "\x27a\x27"]
      (.jint 1) [.jstr "a"] (Or.inl rfl)
      (fun x xs h => by simp at h) (by decide)).2⟩

theorem glueTuples_succ (row : Nat) (ts : List String) :
    glueTuples (row + 1) ts = glueTuples 1 ts := by
  cases ts with
  | nil => rfl
  | cons t ts => simp [glueTuples]

theorem intercalate_go_glue (ts : List String) :
    ∀ acc, String.intercalate.go acc ", " ts = acc ++ glueTuples 1 ts := by
  induction ts with
  | nil => intro acc; simp [String.intercalate.go, glueTuples]
  | cons u us ih =>
    intro acc
    rw [show String.intercalate.go acc ", " (u :: us) =
        String.intercalate.go (acc ++ ", " ++ u) ", " us from rfl]
    rw [ih (acc ++ ", " ++ u)]
    simp [glueTuples, String.append_assoc]

theorem intercalate_eq_glueTuples (ts : List String) :
    String.intercalate ", " ts = glueTuples 0 ts := by
  cases ts with
  | nil => rfl
  | cons t ts =>
    rw [show String.intercalate ", " (t :: ts) =
        String.intercalate.go t ", " ts from rfl]
    rw [intercalate_go_glue]
    simp [glueTuples]

theorem appendLoop_spec (rows : List AppendRow) : ∀ acc row errs,
    appendLoop rows acc row errs =
      (acc ++ glueTuples row ((rows.filter fun r => (appendRowSql r).isSome).map
          fun r => (appendRowSql r).getD ""),
       row + (rows.filter fun r => (appendRowSql r).isSome).length,
       errs ++ (rows.filter fun r => (appendRowSql r).isNone).map
          fun r => "Invalid date |" ++ r.userTs ++ "|") := by
  induction rows with
  | nil =>
    intro acc row errs
    simp [appendLoop, glueTuples]
  | cons r rest ih =>
    intro acc row errs
    cases hv : appendRowSql r with
    | none =>
      simp only [appendLoop, hv]
      rw [ih]
      simp only [List.filter_cons, hv, Option.isSome_none, Bool.false_eq_true,
        if_false, Option.isNone_none, if_true, List.map_cons, Prod.mk.injEq]
      refine ⟨by trivial, by trivial, ?_⟩
      rw [List.append_assoc]
      rfl
    | some tup =>
      simp only [appendLoop, hv]
      rw [ih]
      simp only [List.filter_cons, hv, Option.isSome_some, if_true,
        Option.isNone_some, Bool.false_eq_true, if_false, List.map_cons,
        Option.getD_some, List.length_cons, Prod.mk.injEq]
      refine ⟨?_, by omega, by trivial⟩
      rw [glueTuples_succ, glueTuples]
      simp [String.append_assoc]

/-- C7: for every `appendReadings` payload, rows whose `user_ts` fails
`formatDate` (and is not a function call) are skipped, each raising
`Invalid date |<user_ts>|`, while all remaining rows are kept: the batch
is not aborted, the reported row count is the number of accepted rows,
and the generated `INSERT` carries exactly the accepted rows' tuples in
payload order. -/
theorem claim_C7_invalid_dates_skip_row (rows : List AppendRow) :
    (appendReadings rows).2.1 =
      (rows.filter fun r => (appendRowSql r).isSome).length ∧
    (appendReadings rows).2.2 =
      (rows.filter fun r => (appendRowSql r).isNone).map
        (fun r => "Invalid date |" ++ r.userTs ++ "|") ∧
    (appendReadings rows).1 =
      "INSERT INTO foglamp.readings ( user_ts, asset_code, read_key, reading ) VALUES " ++
        String.intercalate ", " ((rows.filter fun r => (appendRowSql r).isSome).map
          fun r => (appendRowSql r).getD "") ++ ";" := by
  unfold appendReadings
  rw [appendLoop_spec]
  refine ⟨by simp, by simp, ?_⟩
  rw [intercalate_eq_glueTuples]
  simp

/-! ### Claim C4 -/

theorem attrScan_isSome_iff (doc : List Char) (endIdx len : Nat)
    (sf : List Char) : ∀ p, ((attrScan doc endIdx len sf p).isSome = true ↔
      ∃ i, p ≤ i ∧ i < endIdx ∧ (doc.drop i).take len = sf) := by
  have H : ∀ n p, endIdx - p = n →
      ((attrScan doc endIdx len sf p).isSome = true ↔
        ∃ i, p ≤ i ∧ i < endIdx ∧ (doc.drop i).take len = sf) := by
    intro n
    induction n with
    | zero =>
      intro p hp
      have hlt : ¬ p < endIdx := by omega
      rw [attrScan, if_neg hlt]
      simp only [Option.isSome_none, Bool.false_eq_true, false_iff]
      rintro ⟨i, h1, h2, _⟩
      omega
    | succ n ih =>
      intro p hp
      by_cases hlt : p < endIdx
      · rw [attrScan, if_pos hlt]
        by_cases hm : (doc.drop p).take len = sf
        · rw [if_pos hm]
          simp only [Option.isSome_some, true_iff]
          exact ⟨p, Nat.le_refl p, hlt, hm⟩
        · rw [if_neg hm, ih (p + 1) (by omega)]
          constructor
          · rintro ⟨i, h1, h2, h3⟩
            exact ⟨i, by omega, h2, h3⟩
          · rintro ⟨i, h1, h2, h3⟩
            refine ⟨i, ?_, h2, h3⟩
            rcases Nat.eq_or_lt_of_le h1 with rfl | h
            · exact absurd h3 hm
            · omega
      · rw [attrScan, if_neg hlt]
        simp only [Option.isSome_none, Bool.false_eq_true, false_iff]
        rintro ⟨i, h1, h2, _⟩
        omega
  intro p
  exact H (endIdx - p) p rfl

/-- C4, counterexample to the claim as stated: in the frame
`\x7b"ax":1\x7d` (end at offset 7) looking up the key `ab` succeeds —
`strncmp` compares only `name.length()` bytes of the quoted key, here
`"a`, which matches the distinct key `ax` — although the complete quoted
key `"ab"` occurs nowhere in the frame. -/
theorem claim_C4_counterexample :
    getAttribute true ("\x7b\"ax\":1\x7d".toList) 7 ("ab".toList) = some 6 ∧
    ¬ quotedKeyOccurs ("\x7b\"ax\":1\x7d".toList) 7 ("ab".toList) := by
  constructor
  · rw [getAttribute]
    simp only [Bool.not_true, Bool.false_eq_true, if_false]
    rw [attrScan]
    rw [if_pos (by decide), if_neg (by decide)]
    rw [attrScan]
    rw [if_pos (by decide), if_pos (by decide)]
    rw [attrAdvance]
    rw [dif_pos (by decide), if_pos (by decide)]
    rw [attrAdvance]
    rw [dif_pos (by decide), if_neg (by decide)]
    decide
  · rintro ⟨i, hilt, heq⟩
    interval_cases i <;> revert heq <;> decide

/-- C4 (amended): `getAttribute` returns NULL when the current frame is
not an object; within an object frame it returns a cursor exactly when
the first `name.length()` bytes of the quoted key — the opening quote
followed by all but the last character of the name — occur at some byte
offset before the frame's end (the comparison itself may read past both
the key and the frame end, and may match inside a quoted value). -/
theorem claim_C4_getAttribute_truncated_match (doc : List Char)
    (endIdx : Nat) (name : List Char) :
    getAttribute false doc endIdx name = none ∧
    ((getAttribute true doc endIdx name).isSome = true ↔
      ∃ i, i < endIdx ∧
        (doc.drop i).take name.length =
          (searchForOf name).take name.length) := by
  constructor
  · rfl
  · rw [getAttribute]
    simp only [Bool.not_true, Bool.false_eq_true, if_false]
    rw [attrScan_isSome_iff]
    constructor
    · rintro ⟨i, _, h2, h3⟩
      exact ⟨i, h2, h3⟩
    · rintro ⟨i, h2, h3⟩
      exact ⟨i, Nat.zero_le i, h2, h3⟩

/-! ### Claim C6 -/

/-- C6, counterexample to the claim as stated: the array form of
`jsonAggregates` (part_002:1807-1814) substitutes
`to_char(user_ts, ...)` without consulting `isTableReading` and without
excluding `count`: a `count`/`user_ts` aggregate against a common table
(`isTableReading = false`) still gets the substitution, although the
claim restricts it to non-`count` operations on the readings table. -/
theorem claim_C6_counterexample :
    jsonAggregates (.jobj []) (.jarr [.jobj [("operation", .jstr "count"),
        ("column", .jstr "user_ts")]]) false "" =
      .ok ("count" ++ "(" ++
        ("to_char(user_ts, \x27" ++ fDateH24US ++ "\x27)") ++ ") AS \"" ++
        ("count" ++ "_" ++ "user_ts") ++ "\"", "") := by
  rfl

/-- C6 (amended): in the single-object form of `jsonAggregates`, a
non-`count` aggregate over column `user_ts` is wrapped as
`to_char(user_ts, 'YYYY-MM-DD HH24:MI:SS.US')` exactly when
`isTableReading` is true (the readings table), with the alias synthesised
as `operation_column` when absent and taken from `alias` when present;
with `isTableReading` false (common tables) the object form quotes the
column unsubstituted; and
`retrieveReadings(\x7b"aggregate":\x7b"operation":"avg","column":"user_ts"\x7d\x7d)`
compiles to the substituted, aliased SELECT.  (The array form of an
aggregate payload applies the substitution regardless of table and
operation.) -/
theorem claim_C6_user_ts_to_char (op a cIn : String) (hop : op ≠ "count") :
    jsonAggregates (.jobj []) (.jobj [("operation", .jstr op),
        ("column", .jstr "user_ts")]) true cIn =
      .ok (op ++ "(" ++ ("to_char(user_ts, \x27" ++ fDateH24US ++ "\x27)") ++
        ") AS \"" ++ (op ++ "_" ++ "user_ts") ++ "\"", cIn) ∧
    jsonAggregates (.jobj []) (.jobj [("operation", .jstr op),
        ("column", .jstr "user_ts"), ("alias", .jstr a)]) true cIn =
      .ok (op ++ "(" ++ ("to_char(user_ts, \x27" ++ fDateH24US ++ "\x27)") ++
        ") AS \"" ++ a ++ "\"", cIn) ∧
    jsonAggregates (.jobj []) (.jobj [("operation", .jstr op),
        ("column", .jstr "user_ts")]) false cIn =
      .ok (op ++ "(" ++ ("\"" ++ "user_ts" ++ "\"") ++
        ") AS \"" ++ (op ++ "_" ++ "user_ts") ++ "\"", cIn) ∧
    retrieveReadings 1 (some (.jobj [("aggregate",
        .jobj [("operation", .jstr "avg"), ("column", .jstr "user_ts")])])) =
      .ok "SELECT avg(to_char(user_ts, \x27YYYY-MM-DD HH24:MI:SS.US\x27)) AS \"avg_user_ts\" FROM foglamp.readings;" := by
  refine ⟨?_, ?_, ?_, by rfl⟩ <;>
    simp [jsonAggregates, aggObjectSql, JVal.hasMember, JVal.member,
      JVal.memberD, lookupField, JVal.getStr, JVal.isObject, aggAlias,
      aggGroupPart, aggTimebucketPart, hop]

/-- C6 witness: the amended theorem at `avg`, alias `x` and an empty
constraint buffer. -/
theorem claim_C6_user_ts_to_char_witness :
    ("avg" : String) ≠ "count" ∧
    jsonAggregates (.jobj []) (.jobj [("operation", .jstr "avg"),
        ("column", .jstr "user_ts")]) true "" =
      .ok ("avg" ++ "(" ++ ("to_char(user_ts, \x27" ++ fDateH24US ++ "\x27)") ++
        ") AS \"" ++ ("avg" ++ "_" ++ "user_ts") ++ "\"", "") ∧
    jsonAggregates (.jobj []) (.jobj [("operation", .jstr "avg"),
        ("column", .jstr "user_ts"), ("alias", .jstr "x")]) true "" =
      .ok ("avg" ++ "(" ++ ("to_char(user_ts, \x27" ++ fDateH24US ++ "\x27)") ++
        ") AS \"" ++ "x" ++ "\"", "") ∧
    jsonAggregates (.jobj []) (.jobj [("operation", .jstr "avg"),
        ("column", .jstr "user_ts")]) false "" =
      .ok ("avg" ++ "(" ++ ("\"" ++ "user_ts" ++ "\"") ++
        ") AS \"" ++ ("avg" ++ "_" ++ "user_ts") ++ "\"", "") ∧
    retrieveReadings 1 (some (.jobj [("aggregate",
        .jobj [("operation", .jstr "avg"), ("column", .jstr "user_ts")])])) =
      .ok "SELECT avg(to_char(user_ts, \x27YYYY-MM-DD HH24:MI:SS.US\x27)) AS \"avg_user_ts\" FROM foglamp.readings;" :=
  ⟨by decide,
   (claim_C6_user_ts_to_char "avg" "x" "" (by decide)).1,
   (claim_C6_user_ts_to_char "avg" "x" "" (by decide)).2.1,
   (claim_C6_user_ts_to_char "avg" "x" "" (by decide)).2.2.1,
   (claim_C6_user_ts_to_char "avg" "x" "" (by decide)).2.2.2⟩
